import Mathlib

/-!
# USB device driver of the RP2350 (`src/machine/machine_rp2350_usb.go`)

A shallow embedding of the endpoint / control-transfer engine of the driver:
the packet memory (`usbDPSRAM`), the endpoint configurator (`initEndpoint`),
the transmit path (`sendUSBPacket`, `sendViaEPIn`, `sendStallViaEPIn`), the
receive path (`handleEndpointRx`, `handleEndpointRxComplete`), the interrupt
dispatcher (`handleUSBIRQ`) and the address handshake (`handleUSBSetAddress`).

Conventions of the embedding.

* Machine words (`uint32` registers, `byte`s, `int` counts) are natural
  numbers; a conversion that can truncate is written with an explicit `%`.
* A Go run-time panic (index or slice bound out of range) is the result `none`.
* The arrays of 16 registers are total functions of the index; every indexing
  operation of the source carries the bound check `< 16` that Go performs.
* A slice is a list (its capacity is its length).
* A read of a volatile hardware status register (`INTS`, `BUFF_STATUS`,
  `SIE_STATUS`, the timer) is an input of the operation that reads it.
* `txLog` is a ghost trace: `sendViaEPIn` appends one entry for each packet it
  hands to the hardware.
-/

namespace RP2350

/-! ## Constants of the source file -/

def usbEpControlEnable : Nat := 0x80000000
def usbEpControlDoubleBuffered : Nat := 0x40000000
def usbEpControlInterruptPerBuff : Nat := 0x20000000
def usbEpControlInterruptPerDoubleBuff : Nat := 0x10000000
def usbEpControlEndpointType : Nat := 0x0c000000
def usbEpControlInterruptOnStall : Nat := 0x00020000
def usbEpControlInterruptOnNak : Nat := 0x00010000
def usbEpControlBufferAddress : Nat := 0x0000ffff

def usbEpControlEndpointTypeControl : Nat := 0x00000000
def usbEpControlEndpointTypeISO : Nat := 0x04000000
def usbEpControlEndpointTypeBulk : Nat := 0x08000000
def usbEpControlEndpointTypeInterrupt : Nat := 0x0c000000

def usbBuf0CtrlFull : Nat := 0x00008000
def usbBuf0CtrlLast : Nat := 0x00004000
def usbBuf0CtrlData0Pid : Nat := 0x00000000
def usbBuf0CtrlData1Pid : Nat := 0x00002000
def usbBuf0CtrlSel : Nat := 0x00001000
def usbBuf0CtrlStall : Nat := 0x00000800
def usbBuf0CtrlAvail : Nat := 0x00000400
def usbBuf0CtrlLenMask : Nat := 0x000003FF

def usbBufferLen : Nat := 64

/-- Modelled from the spec: `usb.EndpointPacketSize` of package `machine/usb`,
which is not among the source files; the spec gives the maximum packet of a
full-speed endpoint as 64 bytes. -/
def EndpointPacketSize : Nat := 64

/-! ## Data model -/

/-- Modelled from the spec: the Setup Packet `usb.Setup` of package
`machine/usb` (not among the source files), with the fields of the 8-byte
SETUP stage. -/
structure Setup where
  BmRequestType : Nat
  BRequest : Nat
  WValueL : Nat
  WValueH : Nat
  WIndex : Nat
  WLength : Nat

/-- The pending control-transfer context `sendOnEP0DATADONE`. -/
structure DataDone where
  offset : Nat
  data : List Nat
  pid : Nat

/-- One packet handed to the hardware by `sendViaEPIn`: the endpoint index,
the bytes copied into the IN buffer and the buffer-control word written. -/
structure TxPacket where
  ep : Nat
  payload : List Nat
  ctrl : Nat
deriving DecidableEq, Repr

/-- The driver state: the packet memory `_usbDPSRAM` (control words,
buffer-control words, `Buffer0` of every endpoint), the globals `epXdata0`,
`setupBytes`, `sendOnEP0DATADONE`, the last value the driver wrote to each of
the peripheral registers it writes, and the ghost trace `txLog`. -/
structure State where
  EPxControlIn : Nat → Nat
  EPxControlOut : Nat → Nat
  EPxBufferControlIn : Nat → Nat
  EPxBufferControlOut : Nat → Nat
  EPxBuffer0 : Nat → Nat → Nat
  epXdata0 : Nat → Bool
  setupBytes : List Nat
  sendOnEP0DATADONE : DataDone
  ADDR_ENDP : Nat
  SIE_STATUS : Nat
  EP_STALL_ARM : Nat
  BUFF_STATUS : Nat
  txLog : List TxPacket

/-- The declarations the source file uses and does not contain, taken as
parameters: the register constants of package `device/rp`, the constants and
the decoder `NewSetup` of package `machine/usb`, the standard-request handler
and the handler tables (Go arrays whose length is declared elsewhere). -/
structure Env where
  USB_INTS_SETUP_REQ : Nat
  USB_INTS_BUFF_STATUS : Nat
  USB_INTS_BUS_RESET : Nat
  USB_SIE_STATUS_SETUP_REC : Nat
  USB_SIE_STATUS_BUS_RESET : Nat
  USB_SIE_STATUS_ACK_REC : Nat
  USB_ADDR_ENDP_ADDRESS_Msk : Nat
  USB_EP_STALL_ARM_EP0_IN : Nat
  REQUEST_TYPE : Nat
  REQUEST_STANDARD : Nat
  ENDPOINT_TYPE_CONTROL : Nat
  ENDPOINT_TYPE_BULK : Nat
  ENDPOINT_TYPE_INTERRUPT : Nat
  EndpointIn : Nat
  EndpointOut : Nat
  CONTROL_ENDPOINT : Nat
  NewSetup : List Nat → Setup
  handleStandardSetup : Setup → State → Bool × State
  usbSetupHandler : List (Option (Setup → State → Bool × State))
  usbRxHandler : List (Option (List Nat → State → State))
  usbTxHandler : List (Option (State → State))

/-- The five configurations of the `switch` of `initEndpoint`, in the order
of its cases. -/
def Env.configs (env : Env) : List Nat :=
  [env.ENDPOINT_TYPE_INTERRUPT ||| env.EndpointIn,
   env.ENDPOINT_TYPE_BULK ||| env.EndpointOut,
   env.ENDPOINT_TYPE_INTERRUPT ||| env.EndpointOut,
   env.ENDPOINT_TYPE_BULK ||| env.EndpointIn,
   env.ENDPOINT_TYPE_CONTROL]

/-- The case constants of the `switch` of `initEndpoint` are distinct, as Go
requires of the constant cases of a `switch`. -/
def Env.configsDistinct (env : Env) : Prop :=
  env.configs.Nodup

instance (env : Env) : Decidable env.configsDistinct :=
  inferInstanceAs (Decidable env.configs.Nodup)

/-! ## Packet memory -/

/-- The write `_usbDPSRAM.EPxBufferControl[ep].Out.Set(v)`. -/
def setBufCtrlOut (ep v : Nat) (s : State) : State :=
  { s with EPxBufferControlOut := Function.update s.EPxBufferControlOut ep v }

/-- The read-modify-write `_usbDPSRAM.EPxBufferControl[ep].Out.SetBits(v)`. -/
def setBitsBufCtrlOut (ep v : Nat) (s : State) : State :=
  setBufCtrlOut ep (s.EPxBufferControlOut ep ||| v) s

/-- The write `_usbDPSRAM.EPxBufferControl[ep].In.Set(v)`. -/
def setBufCtrlIn (ep v : Nat) (s : State) : State :=
  { s with EPxBufferControlIn := Function.update s.EPxBufferControlIn ep v }

/-- The write `_usbDPSRAM.EPxControl[ep].In.Set(v)`. -/
def setControlIn (ep v : Nat) (s : State) : State :=
  { s with EPxControlIn := Function.update s.EPxControlIn ep v }

/-- The write `_usbDPSRAM.EPxControl[ep].Out.Set(v)`. -/
def setControlOut (ep v : Nat) (s : State) : State :=
  { s with EPxControlOut := Function.update s.EPxControlOut ep v }

/-- The method `usbDPSRAM.clear`: zeroes the four words of each of the 16
endpoints. -/
def usbDPSRAM.clear (s : State) : State :=
  { s with
    EPxControlIn := fun i => if i < 16 then 0 else s.EPxControlIn i
    EPxControlOut := fun i => if i < 16 then 0 else s.EPxControlOut i
    EPxBufferControlIn := fun i => if i < 16 then 0 else s.EPxBufferControlIn i
    EPxBufferControlOut := fun i => if i < 16 then 0 else s.EPxBufferControlOut i }

/-- The method `usbDPSRAM.setupBytes`: the 8 bytes of the SETUP packet, read
from the two control words of the control endpoint into the global array. -/
def usbDPSRAM.setupBytes (env : Env) (s : State) : List Nat × State :=
  let d0 := s.EPxControlIn env.CONTROL_ENDPOINT
  let d1 := s.EPxControlOut env.CONTROL_ENDPOINT
  let b := [d0 % 256, (d0 >>> 8) % 256, (d0 >>> 16) % 256, (d0 >>> 24) % 256,
            d1 % 256, (d1 >>> 8) % 256, (d1 >>> 16) % 256, (d1 >>> 24) % 256]
  (b, { s with setupBytes := b })

/-- The builtin `copy(dst[:], src)` on a `Buffer0` array: the first
`min 64 (len src)` bytes of the array are overwritten. -/
def copyBuffer (dst : Nat → Nat) (src : List Nat) : Nat → Nat :=
  fun j => if j < min usbBufferLen src.length then src.getD j 0 else dst j

/-! ## Transmit path -/

/-- The function `sendViaEPIn`. -/
def sendViaEPIn (ep : Nat) (data : List Nat) (count : Nat) (s : State) : Option State :=
  let val := (count % 2 ^ 32) ||| usbBuf0CtrlAvail
  let i := ep &&& 0x7F
  if i < 16 then
    let d0 := !(s.epXdata0 i)
    let val := if !d0 then val ||| usbBuf0CtrlData1Pid else val
    let val := val ||| usbBuf0CtrlFull
    if count ≤ data.length then
      some { s with
        epXdata0 := Function.update s.epXdata0 i d0
        EPxBuffer0 := Function.update s.EPxBuffer0 i (copyBuffer (s.EPxBuffer0 i) (data.take count))
        EPxBufferControlIn := Function.update s.EPxBufferControlIn i val
        txLog := s.txLog ++ [⟨i, (data.take count).take usbBufferLen, val⟩] }
    else none
  else none

/-- The function `sendUSBPacket`. -/
def sendUSBPacket (ep : Nat) (data : List Nat) (maxsize : Nat) (s : State) : Option State :=
  let count := data.length
  let count := if 0 < maxsize ∧ maxsize < count then maxsize else count
  if ep = 0 then
    if count > EndpointPacketSize then
      let count := EndpointPacketSize
      let s := { s with sendOnEP0DATADONE := { s.sendOnEP0DATADONE with offset := count, data := data } }
      let s := { s with epXdata0 := Function.update s.epXdata0 ep true }
      sendViaEPIn ep data count s
    else
      let s := { s with sendOnEP0DATADONE := { s.sendOnEP0DATADONE with offset := 0 } }
      let s := { s with epXdata0 := Function.update s.epXdata0 ep true }
      sendViaEPIn ep data count s
  else
    sendViaEPIn ep data count s

/-- The function `sendStallViaEPIn`. -/
def sendStallViaEPIn (env : Env) (ep : Nat) (s : State) : Option State :=
  let s := if ep = 0 then { s with EP_STALL_ARM := env.USB_EP_STALL_ARM_EP0_IN } else s
  let i := ep &&& 0x7F
  let val := usbBuf0CtrlFull
  if i < 16 then
    let s := setBufCtrlIn i val s
    let val := val ||| usbBuf0CtrlStall
    some (setBufCtrlIn i val s)
  else none

/-! ## Receive path -/

/-- The function `handleEndpointRx`: the received slice `Buffer0[:sz]` and the
state with the OUT buffer-control word reset to the buffer length. -/
def handleEndpointRx (ep : Nat) (s : State) : Option (List Nat × State) :=
  if ep < 16 then
    let ctrl := s.EPxBufferControlOut ep
    let s := setBufCtrlOut ep (usbBufferLen &&& usbBuf0CtrlLenMask) s
    let sz := ctrl &&& usbBuf0CtrlLenMask
    if sz ≤ usbBufferLen then
      some ((List.range sz).map (s.EPxBuffer0 ep), s)
    else none
  else none

/-- The function `handleEndpointRxComplete`. -/
def handleEndpointRxComplete (ep : Nat) (s : State) : Option State :=
  if ep < 16 then
    let s := { s with epXdata0 := Function.update s.epXdata0 ep (!(s.epXdata0 ep)) }
    let s := if s.epXdata0 ep = true ∨ ep = 0 then setBitsBufCtrlOut ep usbBuf0CtrlData1Pid s else s
    some (setBitsBufCtrlOut ep usbBuf0CtrlAvail s)
  else none

/-! ## Endpoint configurator -/

/-- The function `initEndpoint`. The `switch` over the configuration constants
is the chain of comparisons in the order of the source. -/
def initEndpoint (env : Env) (ep config : Nat) (s : State) : Option State :=
  let val := usbEpControlEnable ||| usbEpControlInterruptPerBuff
  let offset := (ep * 2 * usbBufferLen + 0x100) % 2 ^ 32
  let val := val ||| offset
  if config = env.ENDPOINT_TYPE_INTERRUPT ||| env.EndpointIn then
    let val := val ||| usbEpControlEndpointTypeInterrupt
    if ep < 16 then some (setControlIn ep val s) else none
  else if config = env.ENDPOINT_TYPE_BULK ||| env.EndpointOut then
    let val := val ||| usbEpControlEndpointTypeBulk
    if ep < 16 then
      let s := setControlOut ep val s
      let s := setBufCtrlOut ep (usbBufferLen &&& usbBuf0CtrlLenMask) s
      some (setBitsBufCtrlOut ep usbBuf0CtrlAvail s)
    else none
  else if config = env.ENDPOINT_TYPE_INTERRUPT ||| env.EndpointOut then
    let val := val ||| usbEpControlEndpointTypeInterrupt
    if ep < 16 then
      let s := setControlOut ep val s
      let s := setBufCtrlOut ep (usbBufferLen &&& usbBuf0CtrlLenMask) s
      some (setBitsBufCtrlOut ep usbBuf0CtrlAvail s)
    else none
  else if config = env.ENDPOINT_TYPE_BULK ||| env.EndpointIn then
    let val := val ||| usbEpControlEndpointTypeBulk
    if ep < 16 then some (setControlIn ep val s) else none
  else if config = env.ENDPOINT_TYPE_CONTROL then
    if ep < 16 then
      let s := setBufCtrlOut ep usbBuf0CtrlData1Pid s
      some (setBitsBufCtrlOut ep usbBuf0CtrlAvail s)
    else none
  else some s

/-! ## Interrupt dispatcher -/

/-- The routing of a SETUP packet in `handleUSBIRQ`: the value of `ok` and the
state the handler leaves. A standard request goes to `handleStandardSetup`,
another one to the handler registered for its `WIndex`, if there is one. -/
def routeSetup (env : Env) (setup : Setup) (s : State) : Bool × State :=
  if setup.BmRequestType &&& env.REQUEST_TYPE = env.REQUEST_STANDARD then
    env.handleStandardSetup setup s
  else if setup.WIndex < env.usbSetupHandler.length % 65536 then
    match env.usbSetupHandler.get? setup.WIndex with
    | some (some h) => h setup s
    | _ => (false, s)
  else (false, s)

/-- The SETUP branch of `handleUSBIRQ` (the body of `if (status &
rp.USB_INTS_SETUP_REQ) > 0`). -/
def irqSetupReq (env : Env) (s : State) : Option State :=
  let s := { s with SIE_STATUS := env.USB_SIE_STATUS_SETUP_REC }
  let r := usbDPSRAM.setupBytes env s
  let setup := env.NewSetup r.1
  let r := routeSetup env setup r.2
  if r.1 = false then sendStallViaEPIn env 0 r.2 else some r.2

/-- The continuation of a chunked EP0 IN transfer in the buffer-status branch
of `handleUSBIRQ` (the body of `if sendOnEP0DATADONE.offset > 0`). The slice
expression `data[offset:]` panics when the offset exceeds the length. -/
def irqEP0DataDone (s : State) : Option State :=
  let ep := 0
  let data := s.sendOnEP0DATADONE.data
  let offset := s.sendOnEP0DATADONE.offset
  let count := data.length - offset
  let count := if ep = 0 ∧ count > EndpointPacketSize then EndpointPacketSize else count
  if offset ≤ data.length then
    (sendViaEPIn ep (data.drop offset) count s).map fun s =>
      let offset := s.sendOnEP0DATADONE.offset + count
      let offset := if offset = data.length then 0 else offset
      { s with sendOnEP0DATADONE := { s.sendOnEP0DATADONE with offset := offset } }
  else none

/-- One iteration of the OUT loop of `handleUSBIRQ`, for endpoint `i`. -/
def irqOutStep (env : Env) (s2 : Nat) (s : State) (i : Nat) : Option State :=
  if s2 &&& (1 <<< (i * 2 + 1)) > 0 then
    (handleEndpointRx i s).bind fun r =>
      let s :=
        match env.usbRxHandler.get? i with
        | none => none
        | some none => some r.2
        | some (some h) => some (h r.1 r.2)
      s.bind (handleEndpointRxComplete i)
  else some s

/-- One iteration of the IN loop of `handleUSBIRQ`, for endpoint `i`. -/
def irqInStep (env : Env) (s2 : Nat) (s : State) (i : Nat) : Option State :=
  if s2 &&& (1 <<< (i * 2)) > 0 then
    match env.usbTxHandler.get? i with
    | none => none
    | some none => some s
    | some (some h) => some (h s)
  else some s

/-- The buffer-status branch of `handleUSBIRQ`; `s2` is the value read from
`rp.USB.BUFF_STATUS`. -/
def irqBuffStatus (env : Env) (s2 : Nat) (s : State) : Option State :=
  (if s.sendOnEP0DATADONE.offset > 0 then irqEP0DataDone s else some s).bind fun s =>
  ((List.range 16).foldlM (irqOutStep env s2) s).bind fun s =>
  ((List.range 16).foldlM (irqInStep env s2) s).bind fun s =>
  some { s with BUFF_STATUS := s2 }

/-- The bus-reset branch of `handleUSBIRQ`. -/
def irqBusReset (env : Env) (s : State) : Option State :=
  let s := { s with SIE_STATUS := env.USB_SIE_STATUS_BUS_RESET }
  let s := { s with ADDR_ENDP := 0 }
  initEndpoint env 0 env.ENDPOINT_TYPE_CONTROL s

/-- The function `handleUSBIRQ`; `status` is the value read from
`rp.USB.INTS` and `s2` the value read from `rp.USB.BUFF_STATUS`. -/
def handleUSBIRQ (env : Env) (status s2 : Nat) (s : State) : Option State :=
  (if status &&& env.USB_INTS_SETUP_REQ > 0 then irqSetupReq env s else some s).bind fun s =>
  (if status &&& env.USB_INTS_BUFF_STATUS > 0 then irqBuffStatus env s2 s else some s).bind fun s =>
  if status &&& env.USB_INTS_BUS_RESET > 0 then irqBusReset env s else some s

/-! ## Address-assignment handshake -/

/-- The time `dt` computed in iteration `i` of the polling loop of
`handleUSBSetAddress`: `tm 0` is the value `t` of the first call of
`timer.timeElapsed()` and `tm (i + 1)` the value of the call in iteration `i`
(a 64-bit microsecond counter, so the difference wraps). -/
def elapsed (tm : Nat → Nat) (i : Nat) : Nat :=
  (tm (i + 1) + 2 ^ 64 - tm 0 % 2 ^ 64) % 2 ^ 64

/-- The polling loop of `handleUSBSetAddress`, from iteration `i` on. `sie i`
is the value of the read of `rp.USB.SIE_STATUS` in iteration `i`. The result is
`none` when the loop has not ended after `fuel` iterations. -/
def ackWait (env : Env) (sie tm : Nat → Nat) : Nat → Nat → Option Bool
  | 0, _ => none
  | fuel + 1, i =>
    if sie i &&& env.USB_SIE_STATUS_ACK_REC = 0 then
      if elapsed tm i ≥ 570 then some false else ackWait env sie tm fuel (i + 1)
    else some true

/-- The function `handleUSBSetAddress`, with the hardware reads `sie` and `tm`
of its polling loop and a bound `fuel` on the number of iterations. -/
def handleUSBSetAddress (env : Env) (sie tm : Nat → Nat) (fuel : Nat) (setup : Setup)
    (s : State) : Option (Bool × State) :=
  let s := { s with SIE_STATUS := env.USB_SIE_STATUS_ACK_REC }
  (sendUSBPacket 0 [] 0 s).bind fun s =>
  (ackWait env sie tm fuel 0).bind fun ok =>
  if ok = true then
    some (true, { s with ADDR_ENDP := setup.WValueL &&& env.USB_ADDR_ENDP_ADDRESS_Msk })
  else some (false, s)

/-- An instance of the parameters, on which the operations are evaluated: the
bit masks of the RP2350 registers (`INTS`: SETUP_REQ bit 16, BUS_RESET bit 12,
BUFF_STATUS bit 4; `SIE_STATUS`: ACK_REC bit 30, BUS_RESET bit 19, SETUP_REC
bit 17; a 7-bit device address), the USB 2.0 values of the constants of
`machine/usb`, the eight SETUP bytes decoded in their order on the wire, a
standard-request handler that claims nothing and tables with no handler. -/
def rp2350 : Env where
  USB_INTS_SETUP_REQ := 0x10000
  USB_INTS_BUFF_STATUS := 0x10
  USB_INTS_BUS_RESET := 0x1000
  USB_SIE_STATUS_SETUP_REC := 0x20000
  USB_SIE_STATUS_BUS_RESET := 0x80000
  USB_SIE_STATUS_ACK_REC := 0x40000000
  USB_ADDR_ENDP_ADDRESS_Msk := 0x7F
  USB_EP_STALL_ARM_EP0_IN := 0x1
  REQUEST_TYPE := 0x60
  REQUEST_STANDARD := 0x00
  ENDPOINT_TYPE_CONTROL := 0x00
  ENDPOINT_TYPE_BULK := 0x02
  ENDPOINT_TYPE_INTERRUPT := 0x03
  EndpointIn := 0x80
  EndpointOut := 0x00
  CONTROL_ENDPOINT := 0
  NewSetup := fun b =>
    { BmRequestType := b.getD 0 0, BRequest := b.getD 1 0, WValueL := b.getD 2 0,
      WValueH := b.getD 3 0, WIndex := b.getD 4 0 + 256 * b.getD 5 0,
      WLength := b.getD 6 0 + 256 * b.getD 7 0 }
  handleStandardSetup := fun _ s => (false, s)
  usbSetupHandler := List.replicate 8 none
  usbRxHandler := List.replicate 16 none
  usbTxHandler := List.replicate 16 none

/-- An RX callback: it stores the first received byte in the first byte of the
buffer of endpoint 2. -/
def storeFirstByte (buf : List Nat) (s : State) : State :=
  { s with EPxBuffer0 :=
      Function.update s.EPxBuffer0 2 (Function.update (s.EPxBuffer0 2) 0 (buf.getD 0 0)) }

/-- A TX-complete callback: it sends one byte on endpoint 1. -/
def sendOneByte (s : State) : State :=
  (sendViaEPIn 1 [7] 1 s).getD s

/-- The environment `rp2350` with the two callbacks registered for every
endpoint. -/
def rp2350Callbacks : Env :=
  { rp2350 with
    usbRxHandler := List.replicate 16 (some storeFirstByte)
    usbTxHandler := List.replicate 16 (some sendOneByte) }

/-- A state with every word zero, used to evaluate the operations. -/
def zeroState : State where
  EPxControlIn := fun _ => 0
  EPxControlOut := fun _ => 0
  EPxBufferControlIn := fun _ => 0
  EPxBufferControlOut := fun _ => 0
  EPxBuffer0 := fun _ _ => 0
  epXdata0 := fun _ => false
  setupBytes := List.replicate 8 0
  sendOnEP0DATADONE := { offset := 0, data := [], pid := 0 }
  ADDR_ENDP := 0
  SIE_STATUS := 0
  EP_STALL_ARM := 0
  BUFF_STATUS := 0
  txLog := []

/-! ## Runs of the driver -/

/-- A run of interrupts: `handleUSBIRQ` for each pair of the value read from
`INTS` and the value read from `BUFF_STATUS`, in turn. -/
def irqRun (env : Env) (irqs : List (Nat × Nat)) (s : State) : Option State :=
  irqs.foldlM (fun s q => handleUSBIRQ env q.1 q.2 s) s

/-- The packets of endpoint 0 in the trace, each as its payload and the length
field of its buffer-control word. -/
def ep0Packets (s : State) : List (List Nat × Nat) :=
  (s.txLog.filter (fun p => p.ep = 0)).map (fun p => (p.payload, p.ctrl &&& usbBuf0CtrlLenMask))

/-- The Go slice `data[64*(k-1) : min(64*k, len(data))]`. -/
def ep0Chunk (data : List Nat) (k : Nat) : List Nat :=
  (data.take (min (64 * k) data.length)).drop (64 * (k - 1))

/-- The number of packets of a payload of `L` bytes: `max(1, ceil(L/64))`. -/
def ep0PacketCount (L : Nat) : Nat := max 1 ((L + 63) / 64)

/-- The part of the state a send on endpoint 0 changes: the pending context
and the packets of endpoint 0. -/
def ep0View (s : State) : DataDone × List (List Nat × Nat) :=
  (s.sendOnEP0DATADONE, ep0Packets s)

/-- A callback makes no send on endpoint 0: it leaves the pending context and
the packets of endpoint 0 as they are. -/
def KeepsEP0 (s t : State) : Prop :=
  t.sendOnEP0DATADONE = s.sendOnEP0DATADONE ∧ ep0Packets t = ep0Packets s

/-- The state of a chunked transfer of `data` on endpoint 0 after its first `m`
packets, started in `s0`: the trace of endpoint 0 has grown by these packets,
and the pending context holds the offset `64 * m` while bytes remain and 0
when none does. -/
def EP0Sent (data : List Nat) (s0 : State) (m : Nat) (t : State) : Prop :=
  ep0Packets t = ep0Packets s0 ++
      (List.range m).map (fun j => (ep0Chunk data (j + 1), (ep0Chunk data (j + 1)).length)) ∧
    (64 * m < data.length →
      t.sendOnEP0DATADONE.offset = 64 * m ∧ t.sendOnEP0DATADONE.data = data) ∧
    (data.length ≤ 64 * m → t.sendOnEP0DATADONE.offset = 0)

/-- The byte count of one call of `send` as the spec words it:
`min(len(data), max_count, 64)`, a `max_count` of 0 meaning no limit. -/
def sendCountSpec (len maxCount : Nat) : Nat :=
  if maxCount = 0 then min len 64 else min (min len maxCount) 64

/-- The byte count the caller asks for: `min(len(data), max_count)`, a
`max_count` of 0 meaning no limit. -/
def callerCount (len maxCount : Nat) : Nat :=
  if maxCount = 0 then len else min len maxCount

/-- A run of sends on one endpoint: `sendUSBPacket` for each pair of a payload
and a `maxsize`, in turn. -/
def sendRun (ep : Nat) (sends : List (List Nat × Nat)) (s : State) : Option State :=
  sends.foldlM (fun s p => sendUSBPacket ep p.1 p.2 s) s

/-- The DATA1 PID flag of a buffer-control word. -/
def data1Flag (w : Nat) : Bool :=
  w &&& usbBuf0CtrlData1Pid != 0

/-- The state in which the SETUP branch of `handleUSBIRQ` routes the request:
the condition acknowledged and the bytes of the SETUP packet read. -/
def setupState (env : Env) (s : State) : State :=
  (usbDPSRAM.setupBytes env { s with SIE_STATUS := env.USB_SIE_STATUS_SETUP_REC }).2

/-- The Setup Packet the SETUP branch of `handleUSBIRQ` decodes in state `s`. -/
def setupPacket (env : Env) (s : State) : Setup :=
  env.NewSetup (usbDPSRAM.setupBytes env { s with SIE_STATUS := env.USB_SIE_STATUS_SETUP_REC }).1

/-- No handler claims the request `setup` in state `s`, and the handler asked,
if any, changes nothing: a standard request for which `handleStandardSetup`
returns false, or another request whose `WIndex` is outside the handler table,
has no handler registered, or whose handler returns false. -/
def Unclaimed (env : Env) (setup : Setup) (s : State) : Prop :=
  (setup.BmRequestType &&& env.REQUEST_TYPE = env.REQUEST_STANDARD ∧
    env.handleStandardSetup setup s = (false, s)) ∨
  (setup.BmRequestType &&& env.REQUEST_TYPE ≠ env.REQUEST_STANDARD ∧
    (¬ setup.WIndex < env.usbSetupHandler.length % 65536 ∨
     env.usbSetupHandler.get? setup.WIndex = some none ∨
     ∃ h, env.usbSetupHandler.get? setup.WIndex = some (some h) ∧ h setup s = (false, s)))

/-- A handler claims the request `setup` in state `s` and leaves the state `u`:
a standard request for which `handleStandardSetup` returns true, or another
request whose `WIndex` is inside the handler table and whose registered handler
returns true. -/
def Claimed (env : Env) (setup : Setup) (s u : State) : Prop :=
  (setup.BmRequestType &&& env.REQUEST_TYPE = env.REQUEST_STANDARD ∧
    env.handleStandardSetup setup s = (true, u)) ∨
  (setup.BmRequestType &&& env.REQUEST_TYPE ≠ env.REQUEST_STANDARD ∧
    setup.WIndex < env.usbSetupHandler.length % 65536 ∧
    ∃ h, env.usbSetupHandler.get? setup.WIndex = some (some h) ∧ h setup s = (true, u))

/-- A setup handler that claims every request and sends one byte on
endpoint 1. -/
def acceptSetup (_ : Setup) (s : State) : Bool × State :=
  (true, sendOneByte s)

/-- A setup handler that claims no request and changes nothing. -/
def declineSetup (_ : Setup) (s : State) : Bool × State :=
  (false, s)

/-- The environment `rp2350` with setup handlers registered: the standard
handler claims the requests with `BRequest = 0` only, interface 0 has no
handler, interface 1 has `acceptSetup` and interface 2 has `declineSetup`. -/
def rp2350Handlers : Env :=
  { rp2350 with
    handleStandardSetup := fun setup s =>
      if setup.BRequest = 0 then acceptSetup setup s else declineSetup setup s
    usbSetupHandler := [none, some acceptSetup, some declineSetup] }

/-- A status register that never shows the ACK-received flag. -/
def neverAck (_ : Nat) : Nat := 0

/-- A status register that shows the ACK-received flag from the fourth read
on. -/
def ackAfterThree (i : Nat) : Nat :=
  if i < 3 then 0 else 0x40000000

/-- A timer that advances 100 microseconds between two reads. -/
def timerBy100 (i : Nat) : Nat :=
  1000 + 100 * i

/-- The call `usbRxHandler[i](buf)` guarded by `usbRxHandler[i] != nil`, for
the table entry `o`. -/
def callRx (o : Option (List Nat → State → State)) (buf : List Nat) (s : State) : State :=
  match o with
  | none => s
  | some h => h buf s

/-- The hardware completes an OUT transfer on endpoint `ep`: it stores the
received bytes in `Buffer0` of the endpoint and writes the OUT buffer-control
word `w`. -/
def hwReceive (ep : Nat) (bytes : List Nat) (w : Nat) (s : State) : State :=
  { s with
    EPxBuffer0 := Function.update s.EPxBuffer0 ep (copyBuffer (s.EPxBuffer0 ep) bytes)
    EPxBufferControlOut := Function.update s.EPxBufferControlOut ep w }

/-- The length field of every OUT buffer-control word is within the buffer. -/
def RxLenOK (s : State) : Prop :=
  ∀ i, i < 16 → s.EPxBufferControlOut i &&& usbBuf0CtrlLenMask ≤ usbBufferLen

/-- The offset of the pending context is within its data. -/
def PendingOK (s : State) : Prop :=
  s.sendOnEP0DATADONE.offset ≤ s.sendOnEP0DATADONE.data.length

/-- The state of the hardware and of the pending context is well formed for the
interrupt handler. -/
def IrqSafe (s : State) : Prop :=
  RxLenOK s ∧ PendingOK s

/-- No OUT buffer-control word has the full flag. -/
def OutNotFull (s : State) : Prop :=
  ∀ i, i < 16 → s.EPxBufferControlOut i &&& usbBuf0CtrlFull = 0

/-- A property of the OUT buffer-control words and of the pending context that
the writes of the driver keep: it reads no other part of the state, and holds
after each write the driver makes to an OUT buffer-control word and to the
pending context. -/
structure InvClosed (P : State → Prop) : Prop where
  frame : ∀ s t : State, t.EPxBufferControlOut = s.EPxBufferControlOut →
    t.sendOnEP0DATADONE = s.sendOnEP0DATADONE → P s → P t
  setLen : ∀ (s : State) (ep : Nat), P s → P (setBufCtrlOut ep (usbBufferLen &&& usbBuf0CtrlLenMask) s)
  setData1 : ∀ (s : State) (ep : Nat), P s → P (setBufCtrlOut ep usbBuf0CtrlData1Pid s)
  bitsData1 : ∀ (s : State) (ep : Nat), P s → P (setBitsBufCtrlOut ep usbBuf0CtrlData1Pid s)
  bitsAvail : ∀ (s : State) (ep : Nat), P s → P (setBitsBufCtrlOut ep usbBuf0CtrlAvail s)
  clearOut : ∀ s : State, P s → P { s with
    EPxBufferControlOut := fun i => if i < 16 then 0 else s.EPxBufferControlOut i }
  startPending : ∀ (s : State) (data : List Nat), EndpointPacketSize < data.length → P s →
    P { s with sendOnEP0DATADONE :=
      { s.sendOnEP0DATADONE with offset := EndpointPacketSize, data := data } }
  movePending : ∀ (s : State) (o : Nat), o ≤ s.sendOnEP0DATADONE.data.length → P s →
    P { s with sendOnEP0DATADONE := { s.sendOnEP0DATADONE with offset := o } }

/-- Every callback of the environment keeps the property `P`. -/
def Env.CallbacksKeep (env : Env) (P : State → Prop) : Prop :=
  (∀ setup s, P s → P (env.handleStandardSetup setup s).2) ∧
  (∀ i h, env.usbSetupHandler.get? i = some (some h) → ∀ setup s, P s → P (h setup s).2) ∧
  (∀ i h, env.usbRxHandler.get? i = some (some h) → ∀ buf s, P s → P (h buf s)) ∧
  (∀ i h, env.usbTxHandler.get? i = some (some h) → ∀ s, P s → P (h s))

/-- The operations of the driver. -/
inductive Op where
  | clear
  | initEndpoint (ep config : Nat)
  | sendUSBPacket (ep : Nat) (data : List Nat) (maxsize : Nat)
  | sendViaEPIn (ep : Nat) (data : List Nat) (count : Nat)
  | sendStallViaEPIn (ep : Nat)
  | handleEndpointRx (ep : Nat)
  | handleEndpointRxComplete (ep : Nat)
  | handleUSBIRQ (status s2 : Nat)

/-- One operation of the driver on a state. -/
def Op.run (env : Env) (op : Op) (s : State) : Option State :=
  match op with
  | .clear => some (usbDPSRAM.clear s)
  | .initEndpoint ep config => RP2350.initEndpoint env ep config s
  | .sendUSBPacket ep data maxsize => RP2350.sendUSBPacket ep data maxsize s
  | .sendViaEPIn ep data count => RP2350.sendViaEPIn ep data count s
  | .sendStallViaEPIn ep => RP2350.sendStallViaEPIn env ep s
  | .handleEndpointRx ep => (RP2350.handleEndpointRx ep s).map fun r => r.2
  | .handleEndpointRxComplete ep => RP2350.handleEndpointRxComplete ep s
  | .handleUSBIRQ status s2 => RP2350.handleUSBIRQ env status s2 s

/-- A run of operations of the driver. -/
def runOps (env : Env) (ops : List Op) (s : State) : Option State :=
  ops.foldlM (fun s op => op.run env s) s

/-! ## Lemmas -/

theorem foldlM_keeps {α β : Type} (p : State → β) (f : State → α → Option State)
    (hf : ∀ s a t, f s a = some t → p t = p s) :
    ∀ (l : List α) (s t : State), l.foldlM f s = some t → p t = p s := by
  intro l
  induction l with
  | nil => intro s t h; simp at h; rw [h]
  | cons a l ih =>
    intro s t h
    rw [List.foldlM_cons] at h
    cases hfa : f s a with
    | none => rw [hfa] at h; simp at h
    | some u =>
      rw [hfa] at h
      have h1 := ih u t h
      rw [h1, hf s a u hfa]

theorem foldlM_returns {α : Type} (f : State → α → Option State) (l : List α)
    (hf : ∀ s a, a ∈ l → ∃ t, f s a = some t) :
    ∀ s : State, ∃ t, l.foldlM f s = some t := by
  induction l with
  | nil => intro s; exact ⟨s, rfl⟩
  | cons a l ih =>
    intro s
    obtain ⟨u, hu⟩ := hf s a (List.mem_cons_self a l)
    obtain ⟨t, ht⟩ := ih (fun s b hb => hf s b (List.mem_cons_of_mem a hb)) u
    exact ⟨t, by rw [List.foldlM_cons, hu]; exact ht⟩

/-- The result of `sendViaEPIn` on the endpoint index `i = ep & 0x7F`. -/
theorem sendViaEPIn_eq (ep : Nat) (data : List Nat) (count : Nat) (s : State) (i : Nat)
    (hi : ep &&& 0x7F = i) (hi16 : i < 16) (hc : count ≤ data.length) :
    sendViaEPIn ep data count s = some { s with
      epXdata0 := Function.update s.epXdata0 i (!(s.epXdata0 i))
      EPxBuffer0 := Function.update s.EPxBuffer0 i (copyBuffer (s.EPxBuffer0 i) (data.take count))
      EPxBufferControlIn := Function.update s.EPxBufferControlIn i
        ((if s.epXdata0 i = true
          then (count % 2 ^ 32 ||| usbBuf0CtrlAvail) ||| usbBuf0CtrlData1Pid
          else count % 2 ^ 32 ||| usbBuf0CtrlAvail) ||| usbBuf0CtrlFull)
      txLog := s.txLog ++ [⟨i, (data.take count).take usbBufferLen,
        (if s.epXdata0 i = true
          then (count % 2 ^ 32 ||| usbBuf0CtrlAvail) ||| usbBuf0CtrlData1Pid
          else count % 2 ^ 32 ||| usbBuf0CtrlAvail) ||| usbBuf0CtrlFull⟩] } := by
  subst hi
  simp only [sendViaEPIn, if_pos hi16, if_pos hc, Bool.not_not]

theorem lenField_of_le : ∀ c, c < 65 → ∀ b : Bool,
    ((if b = true then (c % 2 ^ 32 ||| usbBuf0CtrlAvail) ||| usbBuf0CtrlData1Pid
      else c % 2 ^ 32 ||| usbBuf0CtrlAvail) ||| usbBuf0CtrlFull) &&& usbBuf0CtrlLenMask = c := by
  decide

theorem sendViaEPIn_ep0 (data : List Nat) (count : Nat) (s : State)
    (hc : count ≤ data.length) (h64 : count ≤ 64) :
    ∃ t, sendViaEPIn 0 data count s = some t ∧
      t.sendOnEP0DATADONE = s.sendOnEP0DATADONE ∧
      ep0Packets t = ep0Packets s ++ [(data.take count, count)] := by
  have hl := lenField_of_le count (by omega) (s.epXdata0 0)
  refine ⟨_, sendViaEPIn_eq 0 data count s 0 rfl (by decide) hc, rfl, ?_⟩
  simp only [ep0Packets, List.filter_append, List.map_append, List.filter_cons, List.filter_nil,
    decide_True, if_true, List.map_cons, List.map_nil]
  rw [hl, List.take_take]
  simp [usbBufferLen, Nat.min_eq_right h64]

theorem eq_of_get?_replicate {α : Type} (n : Nat) (a b : α) (i : Nat)
    (h : (List.replicate n a).get? i = some b) : b = a :=
  (List.mem_replicate.1 (List.get?_mem h)).2

theorem keepsEP0_iff (s t : State) : KeepsEP0 s t ↔ ep0View t = ep0View s := by
  simp [KeepsEP0, ep0View, Prod.ext_iff]

theorem initEndpoint_ep0View (env : Env) (ep config : Nat) (s t : State)
    (h : initEndpoint env ep config s = some t) : ep0View t = ep0View s := by
  simp only [initEndpoint] at h
  split_ifs at h <;> (injection h with h; subst h; rfl)

theorem handleEndpointRx_ep0View (ep : Nat) (s : State) (r : List Nat × State)
    (h : handleEndpointRx ep s = some r) : ep0View r.2 = ep0View s := by
  simp only [handleEndpointRx] at h
  split_ifs at h
  injection h with h; subst h; rfl

theorem handleEndpointRxComplete_ep0View (ep : Nat) (s t : State)
    (h : handleEndpointRxComplete ep s = some t) : ep0View t = ep0View s := by
  simp only [handleEndpointRxComplete] at h
  split_ifs at h <;> (injection h with h; subst h; rfl)

theorem irqOutStep_ep0View (env : Env) (s2 : Nat)
    (hrx : ∀ i f, env.usbRxHandler.get? i = some (some f) → ∀ buf t, KeepsEP0 t (f buf t))
    (s : State) (i : Nat) (t : State) (h : irqOutStep env s2 s i = some t) :
    ep0View t = ep0View s := by
  simp only [irqOutStep] at h
  split_ifs at h
  · cases hr : handleEndpointRx i s with
    | none => rw [hr] at h; cases h
    | some r =>
      rw [hr] at h
      have h1 := handleEndpointRx_ep0View i s r hr
      simp only [Option.some_bind] at h
      cases hh : env.usbRxHandler.get? i with
      | none => rw [hh] at h; cases h
      | some o =>
        cases o with
        | none =>
          rw [hh] at h
          simp only [Option.some_bind] at h
          rw [handleEndpointRxComplete_ep0View i _ t h, h1]
        | some f =>
          rw [hh] at h
          simp only [Option.some_bind] at h
          rw [handleEndpointRxComplete_ep0View i _ t h,
            (keepsEP0_iff _ _).1 (hrx i f hh r.1 r.2), h1]
  · injection h with h; subst h; rfl

theorem irqInStep_ep0View (env : Env) (s2 : Nat)
    (htx : ∀ i f, env.usbTxHandler.get? i = some (some f) → ∀ t, KeepsEP0 t (f t))
    (s : State) (i : Nat) (t : State) (h : irqInStep env s2 s i = some t) :
    ep0View t = ep0View s := by
  simp only [irqInStep] at h
  split_ifs at h
  · cases hh : env.usbTxHandler.get? i with
    | none => rw [hh] at h; cases h
    | some o =>
      cases o with
      | none => rw [hh] at h; injection h with h; subst h; rfl
      | some f =>
        rw [hh] at h; injection h with h; subst h
        exact (keepsEP0_iff _ _).1 (htx i f hh s)
  · injection h with h; subst h; rfl

theorem initEndpoint_returns (env : Env) (ep config : Nat) (s : State) (h : ep < 16) :
    ∃ t, initEndpoint env ep config s = some t := by
  simp only [initEndpoint, if_pos h]
  split_ifs <;> exact ⟨_, rfl⟩

theorem ep0Chunk_succ (data : List Nat) (m c : Nat) (hc : c = min (data.length - 64 * m) 64) :
    ep0Chunk data (m + 1) = (data.drop (64 * m)).take c ∧ (ep0Chunk data (m + 1)).length = c := by
  have h1 : ep0Chunk data (m + 1) = (data.drop (64 * m)).take c := by
    simp only [ep0Chunk, Nat.add_sub_cancel, List.drop_take]
    congr 1
    omega
  refine ⟨h1, ?_⟩
  rw [h1, List.length_take, List.length_drop]
  omega

/-- The first packet of a transfer on endpoint 0. -/
theorem sendUSBPacket_ep0_first (data : List Nat) (s : State) :
    ∃ t, sendUSBPacket 0 data 0 s = some t ∧ EP0Sent data s 1 t := by
  obtain ⟨hch, hlen⟩ := ep0Chunk_succ data 0 (min data.length 64) (by omega)
  simp only [Nat.mul_zero, List.drop_zero] at hch
  rw [hch] at hlen
  by_cases hL : data.length > 64
  · obtain ⟨t, ht, hp, hq⟩ := sendViaEPIn_ep0 data 64
      { s with
        sendOnEP0DATADONE := { s.sendOnEP0DATADONE with offset := 64, data := data }
        epXdata0 := Function.update s.epXdata0 0 true } (by omega) (le_refl _)
    refine ⟨t, ?_, ?_, ?_, ?_⟩
    · simp only [sendUSBPacket, EndpointPacketSize, Nat.lt_irrefl, false_and, if_false,
        if_true, if_pos hL]
      exact ht
    · rw [hq]
      simp only [List.range_succ, List.range_zero, List.nil_append, List.map_cons, List.map_nil,
        hch, hlen]
      rw [Nat.min_eq_right (by omega : 64 ≤ data.length)]
      rfl
    · intro _; rw [hp]; exact ⟨rfl, rfl⟩
    · intro h; omega
  · obtain ⟨t, ht, hp, hq⟩ := sendViaEPIn_ep0 data data.length
      { s with
        sendOnEP0DATADONE := { s.sendOnEP0DATADONE with offset := 0 }
        epXdata0 := Function.update s.epXdata0 0 true } (le_refl _) (by omega)
    refine ⟨t, ?_, ?_, ?_, ?_⟩
    · simp only [sendUSBPacket, EndpointPacketSize, Nat.lt_irrefl, false_and, if_false,
        if_true, if_neg hL]
      exact ht
    · rw [hq]
      simp only [List.range_succ, List.range_zero, List.nil_append, List.map_cons, List.map_nil,
        hch, hlen]
      rw [Nat.min_eq_left (by omega : data.length ≤ 64)]
      rfl
    · intro h; omega
    · intro _; rw [hp]

/-- The continuation packet of a transfer on endpoint 0 with bytes left. -/
theorem irqEP0DataDone_next (data : List Nat) (s0 t : State) (m : Nat)
    (hm : 64 * m < data.length) (h : EP0Sent data s0 m t) :
    ∃ u, irqEP0DataDone t = some u ∧ EP0Sent data s0 (m + 1) u := by
  obtain ⟨hlog, hmore, _⟩ := h
  obtain ⟨hoff, hdat⟩ := hmore hm
  obtain ⟨hch, hlen⟩ := ep0Chunk_succ data m (min (data.length - 64 * m) 64) rfl
  have hcount : (if data.length - 64 * m > EndpointPacketSize
      then EndpointPacketSize else data.length - 64 * m) = min (data.length - 64 * m) 64 := by
    simp only [EndpointPacketSize]
    split_ifs <;> omega
  obtain ⟨u, hu, hp, hq⟩ := sendViaEPIn_ep0 (data.drop (64 * m)) (min (data.length - 64 * m) 64) t
    (by rw [List.length_drop]; omega) (by omega)
  rw [hch] at hlen
  refine ⟨{ u with sendOnEP0DATADONE := { u.sendOnEP0DATADONE with
      offset := if u.sendOnEP0DATADONE.offset + min (data.length - 64 * m) 64 = data.length then 0
        else u.sendOnEP0DATADONE.offset + min (data.length - 64 * m) 64 } }, ?_, ?_, ?_, ?_⟩
  · simp only [irqEP0DataDone, hoff, hdat, if_pos (Nat.le_of_lt hm), true_and]
    rw [hcount, hu]
    rfl
  · show ep0Packets u = _
    rw [hq, hlog, List.range_succ, List.map_append, List.append_assoc]
    simp only [List.map_cons, List.map_nil, hch, hlen]
  · intro h1
    show (if u.sendOnEP0DATADONE.offset + min (data.length - 64 * m) 64 = data.length then 0
      else u.sendOnEP0DATADONE.offset + min (data.length - 64 * m) 64) = 64 * (m + 1) ∧
      u.sendOnEP0DATADONE.data = data
    rw [hp, hoff, hdat]
    refine ⟨?_, rfl⟩
    split_ifs <;> omega
  · intro h1
    show (if u.sendOnEP0DATADONE.offset + min (data.length - 64 * m) 64 = data.length then 0
      else u.sendOnEP0DATADONE.offset + min (data.length - 64 * m) 64) = 0
    rw [hp, hoff]
    split_ifs <;> omega

theorem outBit_clear (s2 i : Nat) (hi : i < 16) (h : s2 &&& 0xAAAAAAAA = 0) :
    ¬ (s2 &&& (1 <<< (i * 2 + 1)) > 0) := by
  have hb : (1 <<< (i * 2 + 1)) = 0xAAAAAAAA &&& (1 <<< (i * 2 + 1)) := by
    interval_cases i <;> rfl
  rw [hb, ← Nat.land_assoc, h, Nat.zero_and]
  exact Nat.lt_irrefl 0

theorem EP0Sent_of_view (data : List Nat) (s0 : State) (m : Nat) (t u : State)
    (hv : ep0View u = ep0View t) (h : EP0Sent data s0 m t) : EP0Sent data s0 m u := by
  obtain ⟨h1, h2⟩ := (keepsEP0_iff t u).2 hv
  unfold EP0Sent
  rw [h1, h2]
  exact h

theorem irqBuffStatus_ep0View (env : Env) (s2 : Nat)
    (hrx : ∀ i f, env.usbRxHandler.get? i = some (some f) → ∀ buf t, KeepsEP0 t (f buf t))
    (htx : ∀ i f, env.usbTxHandler.get? i = some (some f) → ∀ t, KeepsEP0 t (f t))
    (s t : State) (h : irqBuffStatus env s2 s = some t) :
    ∃ u, (if s.sendOnEP0DATADONE.offset > 0 then irqEP0DataDone s else some s) = some u ∧
      ep0View t = ep0View u := by
  simp only [irqBuffStatus] at h
  cases h0 : (if s.sendOnEP0DATADONE.offset > 0 then irqEP0DataDone s else some s) with
  | none => simp only [h0, Option.none_bind] at h; cases h
  | some u =>
    simp only [h0, Option.some_bind] at h
    refine ⟨u, rfl, ?_⟩
    cases h1 : List.foldlM (irqOutStep env s2) u (List.range 16) with
    | none => simp only [h1, Option.none_bind] at h; cases h
    | some v =>
      simp only [h1, Option.some_bind] at h
      cases h2 : List.foldlM (irqInStep env s2) v (List.range 16) with
      | none => simp only [h2, Option.none_bind] at h; cases h
      | some w =>
        simp only [h2, Option.some_bind] at h
        injection h with h
        subst h
        have e1 := foldlM_keeps ep0View (irqOutStep env s2) (irqOutStep_ep0View env s2 hrx) _ u v h1
        have e2 := foldlM_keeps ep0View (irqInStep env s2) (irqInStep_ep0View env s2 htx) _ v w h2
        show ep0View w = ep0View u
        rw [e2, e1]

theorem irqBuffStatus_returns (env : Env) (s2 : Nat) (s u : State)
    (h0 : (if s.sendOnEP0DATADONE.offset > 0 then irqEP0DataDone s else some s) = some u)
    (hout : s2 &&& 0xAAAAAAAA = 0) (hlen : 16 ≤ env.usbTxHandler.length) :
    ∃ t, irqBuffStatus env s2 s = some t := by
  obtain ⟨v, hv⟩ := foldlM_returns (irqOutStep env s2) (List.range 16) (by
    intro s i hi
    simp only [irqOutStep, if_neg (outBit_clear s2 i (List.mem_range.1 hi) hout)]
    exact ⟨s, rfl⟩) u
  obtain ⟨w, hw⟩ := foldlM_returns (irqInStep env s2) (List.range 16) (by
    intro s i hi
    have hi2 : i < env.usbTxHandler.length := by
      have := List.mem_range.1 hi
      omega
    simp only [irqInStep]
    split_ifs
    · rw [List.get?_eq_get hi2]
      cases env.usbTxHandler.get ⟨i, hi2⟩ <;> exact ⟨_, rfl⟩
    · exact ⟨s, rfl⟩) v
  refine ⟨{ w with BUFF_STATUS := s2 }, ?_⟩
  simp only [irqBuffStatus, h0, hv, hw, Option.some_bind]

theorem irqBusReset_ep0View (env : Env) (s t : State) (h : irqBusReset env s = some t) :
    ep0View t = ep0View s := by
  simp only [irqBusReset] at h
  rw [initEndpoint_ep0View env 0 _ _ t h]
  rfl

theorem irqBusReset_returns (env : Env) (s : State) : ∃ t, irqBusReset env s = some t :=
  initEndpoint_returns env 0 _ _ (by decide)

theorem handleUSBIRQ_ep0View (env : Env) (status s2 : Nat)
    (hrx : ∀ i f, env.usbRxHandler.get? i = some (some f) → ∀ buf t, KeepsEP0 t (f buf t))
    (htx : ∀ i f, env.usbTxHandler.get? i = some (some f) → ∀ t, KeepsEP0 t (f t))
    (hb : status &&& env.USB_INTS_BUFF_STATUS > 0) (hs : status &&& env.USB_INTS_SETUP_REQ = 0)
    (s t : State) (h : handleUSBIRQ env status s2 s = some t) :
    ∃ u, (if s.sendOnEP0DATADONE.offset > 0 then irqEP0DataDone s else some s) = some u ∧
      ep0View t = ep0View u := by
  simp only [handleUSBIRQ, hs, Nat.lt_irrefl, if_false, if_pos hb, Option.some_bind] at h
  cases h1 : irqBuffStatus env s2 s with
  | none => simp only [h1, Option.none_bind] at h; cases h
  | some v =>
    simp only [h1, Option.some_bind] at h
    obtain ⟨u, hu, hv⟩ := irqBuffStatus_ep0View env s2 hrx htx s v h1
    refine ⟨u, hu, ?_⟩
    split_ifs at h
    · rw [irqBusReset_ep0View env v t h, hv]
    · injection h with h; subst h; exact hv

theorem handleUSBIRQ_returns (env : Env) (status s2 : Nat)
    (hb : status &&& env.USB_INTS_BUFF_STATUS > 0) (hs : status &&& env.USB_INTS_SETUP_REQ = 0)
    (s u : State)
    (h0 : (if s.sendOnEP0DATADONE.offset > 0 then irqEP0DataDone s else some s) = some u)
    (hout : s2 &&& 0xAAAAAAAA = 0) (hlen : 16 ≤ env.usbTxHandler.length) :
    ∃ t, handleUSBIRQ env status s2 s = some t := by
  obtain ⟨v, hv⟩ := irqBuffStatus_returns env s2 s u h0 hout hlen
  simp only [handleUSBIRQ, hs, Nat.lt_irrefl, if_false, if_pos hb, Option.some_bind, hv]
  split_ifs
  · exact irqBusReset_returns env v
  · exact ⟨v, rfl⟩

theorem ep0Chunk_eq (data : List Nat) (n : Nat) :
    ep0Chunk data (n + 1) = (data.drop (64 * n)).take 64 := by
  have h1 : data.take (min (64 * (n + 1)) data.length) = data.take (64 * (n + 1)) := by
    by_cases h : 64 * (n + 1) ≤ data.length
    · rw [Nat.min_eq_left h]
    · rw [Nat.min_eq_right (by omega), List.take_of_length_le (le_refl _),
        List.take_of_length_le (by omega)]
  simp only [ep0Chunk, Nat.add_sub_cancel, h1, List.drop_take]
  congr 1
  omega

theorem ep0Chunk_flatten (data : List Nat) (n : Nat) :
    ((List.range n).map (fun j => ep0Chunk data (j + 1))).flatten = data.take (64 * n) := by
  induction n with
  | zero => simp
  | succ n ih =>
    rw [List.range_succ, List.map_append, List.flatten_append, ih, List.map_cons, List.map_nil,
      List.flatten_singleton, ep0Chunk_eq, Nat.mul_succ, List.take_add]

theorem EP0Sent_step (env : Env) (status s2 : Nat)
    (hrx : ∀ i f, env.usbRxHandler.get? i = some (some f) → ∀ buf t, KeepsEP0 t (f buf t))
    (htx : ∀ i f, env.usbTxHandler.get? i = some (some f) → ∀ t, KeepsEP0 t (f t))
    (hb : status &&& env.USB_INTS_BUFF_STATUS > 0) (hs : status &&& env.USB_INTS_SETUP_REQ = 0)
    (data : List Nat) (s0 t : State) (m : Nat) (hm : 1 ≤ m) (h : EP0Sent data s0 m t) :
    (∀ u, handleUSBIRQ env status s2 t = some u →
      EP0Sent data s0 (if 64 * m < data.length then m + 1 else m) u) ∧
    (s2 &&& 0xAAAAAAAA = 0 → 16 ≤ env.usbTxHandler.length →
      ∃ u, handleUSBIRQ env status s2 t = some u) := by
  have hcont : ∃ v, (if t.sendOnEP0DATADONE.offset > 0 then irqEP0DataDone t else some t) = some v ∧
      EP0Sent data s0 (if 64 * m < data.length then m + 1 else m) v := by
    by_cases hlt : 64 * m < data.length
    · obtain ⟨v, hv, hsent⟩ := irqEP0DataDone_next data s0 t m hlt h
      have hoff := (h.2.1 hlt).1
      refine ⟨v, ?_, ?_⟩
      · rw [if_pos (by omega), hv]
      · rw [if_pos hlt]; exact hsent
    · have hoff := h.2.2 (by omega)
      refine ⟨t, ?_, ?_⟩
      · rw [hoff]; rfl
      · rw [if_neg hlt]; exact h
  obtain ⟨v, hv, hsent⟩ := hcont
  constructor
  · intro u hu
    obtain ⟨w, hw, hview⟩ := handleUSBIRQ_ep0View env status s2 hrx htx hb hs t u hu
    rw [hv] at hw
    injection hw with hw
    subst hw
    exact EP0Sent_of_view data s0 _ v u hview hsent
  · intro hout hlen
    exact handleUSBIRQ_returns env status s2 hb hs t v hv hout hlen

theorem irqRun_EP0Sent (env : Env)
    (hrx : ∀ i f, env.usbRxHandler.get? i = some (some f) → ∀ buf t, KeepsEP0 t (f buf t))
    (htx : ∀ i f, env.usbTxHandler.get? i = some (some f) → ∀ t, KeepsEP0 t (f t))
    (data : List Nat) (s0 : State) :
    ∀ (irqs : List (Nat × Nat)) (m : Nat) (t : State), 1 ≤ m → m ≤ ep0PacketCount data.length →
      EP0Sent data s0 m t →
      (∀ q ∈ irqs, q.1 &&& env.USB_INTS_BUFF_STATUS > 0 ∧ q.1 &&& env.USB_INTS_SETUP_REQ = 0) →
      (∀ u, irqRun env irqs t = some u →
        EP0Sent data s0 (min (m + irqs.length) (ep0PacketCount data.length)) u) ∧
      ((∀ q ∈ irqs, q.2 &&& 0xAAAAAAAA = 0) → 16 ≤ env.usbTxHandler.length →
        ∃ u, irqRun env irqs t = some u) := by
  intro irqs
  induction irqs with
  | nil =>
    intro m t _ hmN h _
    refine ⟨?_, fun _ _ => ⟨t, rfl⟩⟩
    intro u hu
    simp only [irqRun, List.foldlM_nil, pure, Option.some.injEq] at hu
    subst hu
    simp only [List.length_nil, Nat.add_zero, Nat.min_eq_left hmN]
    exact h
  | cons q irqs ih =>
    intro m t hm hmN h hq
    obtain ⟨hb, hs⟩ := hq q (List.mem_cons_self q irqs)
    obtain ⟨hstep, hret⟩ := EP0Sent_step env q.1 q.2 hrx htx hb hs data s0 t m hm h
    have hm1 : 1 ≤ (if 64 * m < data.length then m + 1 else m) := by split_ifs <;> omega
    have hm2 : (if 64 * m < data.length then m + 1 else m) ≤ ep0PacketCount data.length := by
      unfold ep0PacketCount at hmN ⊢
      split_ifs <;> omega
    have hidx : min ((if 64 * m < data.length then m + 1 else m) + irqs.length)
        (ep0PacketCount data.length) =
        min (m + (q :: irqs).length) (ep0PacketCount data.length) := by
      unfold ep0PacketCount at hmN ⊢
      simp only [List.length_cons]
      split_ifs <;> omega
    have hrun : ∀ v, handleUSBIRQ env q.1 q.2 t = some v →
        irqRun env (q :: irqs) t = irqRun env irqs v := by
      intro v hv
      simp only [irqRun, List.foldlM_cons, hv, bind, Option.bind]
    constructor
    · intro u hu
      cases hv : handleUSBIRQ env q.1 q.2 t with
      | none =>
        simp only [irqRun, List.foldlM_cons, hv, bind, Option.bind] at hu
        cases hu
      | some v =>
        rw [hrun v hv] at hu
        have := (ih _ v hm1 hm2 (hstep v hv)
          (fun p hp => hq p (List.mem_cons_of_mem q hp))).1 u hu
        rw [hidx] at this
        exact this
    · intro hout hlen
      obtain ⟨v, hv⟩ := hret (hout q (List.mem_cons_self q irqs)) hlen
      rw [hrun v hv]
      exact (ih _ v hm1 hm2 (hstep v hv)
        (fun p hp => hq p (List.mem_cons_of_mem q hp))).2
        (fun p hp => hout p (List.mem_cons_of_mem q hp)) hlen

theorem and_7F_of_lt : ∀ ep, ep < 16 → ep &&& 0x7F = ep := by decide

theorem ctrlFlags_of_le : ∀ c, c < 65 → ∀ b : Bool,
    ((if b = true then (c % 2 ^ 32 ||| usbBuf0CtrlAvail) ||| usbBuf0CtrlData1Pid
      else c % 2 ^ 32 ||| usbBuf0CtrlAvail) ||| usbBuf0CtrlFull) &&& usbBuf0CtrlAvail
        = usbBuf0CtrlAvail ∧
    ((if b = true then (c % 2 ^ 32 ||| usbBuf0CtrlAvail) ||| usbBuf0CtrlData1Pid
      else c % 2 ^ 32 ||| usbBuf0CtrlAvail) ||| usbBuf0CtrlFull) &&& usbBuf0CtrlFull
        = usbBuf0CtrlFull ∧
    ((if b = true then (c % 2 ^ 32 ||| usbBuf0CtrlAvail) ||| usbBuf0CtrlData1Pid
      else c % 2 ^ 32 ||| usbBuf0CtrlAvail) ||| usbBuf0CtrlFull) &&& usbBuf0CtrlStall = 0 ∧
    ((if b = true then (c % 2 ^ 32 ||| usbBuf0CtrlAvail) ||| usbBuf0CtrlData1Pid
      else c % 2 ^ 32 ||| usbBuf0CtrlAvail) ||| usbBuf0CtrlFull) &&& usbBuf0CtrlData1Pid
        = if b = true then usbBuf0CtrlData1Pid else 0 := by
  decide

/-- One packet of at most 64 bytes sent by `sendViaEPIn` on an endpoint below
16: the buffer, the buffer-control word and the tracked bit afterwards. -/
theorem sendViaEPIn_packet (ep : Nat) (data : List Nat) (count : Nat) (s : State)
    (hep : ep < 16) (hc : count ≤ data.length) (h64 : count ≤ 64) :
    ∃ t, sendViaEPIn ep data count s = some t ∧
      (∀ j, j < count → t.EPxBuffer0 ep j = data.getD j 0) ∧
      (∀ j, count ≤ j → t.EPxBuffer0 ep j = s.EPxBuffer0 ep j) ∧
      t.EPxBufferControlIn ep &&& usbBuf0CtrlLenMask = count ∧
      t.EPxBufferControlIn ep &&& usbBuf0CtrlAvail = usbBuf0CtrlAvail ∧
      t.EPxBufferControlIn ep &&& usbBuf0CtrlFull = usbBuf0CtrlFull ∧
      t.EPxBufferControlIn ep &&& usbBuf0CtrlStall = 0 ∧
      t.EPxBufferControlIn ep &&& usbBuf0CtrlData1Pid
        = (if s.epXdata0 ep = true then usbBuf0CtrlData1Pid else 0) ∧
      t.epXdata0 ep = (!(s.epXdata0 ep)) ∧
      (∀ i, i ≠ ep → t.epXdata0 i = s.epXdata0 i) ∧
      t.txLog = s.txLog ++ [⟨ep, data.take count, t.EPxBufferControlIn ep⟩] := by
  have h7 := and_7F_of_lt ep hep
  have hl := lenField_of_le count (by omega) (s.epXdata0 ep)
  obtain ⟨f1, f2, f3, f4⟩ := ctrlFlags_of_le count (by omega) (s.epXdata0 ep)
  refine ⟨_, sendViaEPIn_eq ep data count s ep h7 hep hc, ?_⟩
  simp only [Function.update_same]
  refine ⟨?_, ?_, hl, f1, f2, f3, f4, trivial, ?_, ?_⟩
  · intro j hj
    have hj2 : j < min usbBufferLen (data.take count).length := by
      rw [List.length_take]; unfold usbBufferLen; omega
    simp only [copyBuffer, if_pos hj2, List.getD_eq_getElem?_getD, List.getElem?_take, if_pos hj]
  · intro j hj
    have hj2 : ¬ j < min usbBufferLen (data.take count).length := by
      rw [List.length_take]; unfold usbBufferLen; omega
    simp only [copyBuffer, if_neg hj2]
  · intro i hi
    exact Function.update_noteq hi _ _
  · rw [List.take_take, Nat.min_eq_right (by unfold usbBufferLen; omega)]

/-- The copy made by `sendViaEPIn` on an endpoint below 16, for any count
within the payload: the first `min count 64` bytes of the buffer are those of
the payload and the others are as before. -/
theorem sendViaEPIn_copy (ep : Nat) (data : List Nat) (count : Nat) (s : State)
    (hep : ep < 16) (hc : count ≤ data.length) :
    ∃ t, sendViaEPIn ep data count s = some t ∧
      (∀ j, j < min count 64 → t.EPxBuffer0 ep j = data.getD j 0) ∧
      (∀ j, min count 64 ≤ j → t.EPxBuffer0 ep j = s.EPxBuffer0 ep j) := by
  refine ⟨_, sendViaEPIn_eq ep data count s ep (and_7F_of_lt ep hep) hep hc, ?_⟩
  simp only [Function.update_same]
  refine ⟨?_, ?_⟩
  · intro j hj
    have hj2 : j < min usbBufferLen (data.take count).length := by
      rw [List.length_take]; unfold usbBufferLen; omega
    have hj3 : j < count := by omega
    simp only [copyBuffer, if_pos hj2, List.getD_eq_getElem?_getD, List.getElem?_take, if_pos hj3]
  · intro j hj
    have hj2 : ¬ j < min usbBufferLen (data.take count).length := by
      rw [List.length_take]; unfold usbBufferLen; omega
    simp only [copyBuffer, if_neg hj2]

theorem data1Pid_ite_ne_zero (b : Bool) :
    ((if b = true then usbBuf0CtrlData1Pid else 0) != 0) = b := by
  cases b <;> decide

/-- One single-packet call of `sendUSBPacket`: the DATA1 flag written is the
tracked bit before the call, forced to true on endpoint 0, and the tracked bit
afterwards is its negation. -/
theorem sendUSBPacket_single (ep : Nat) (data : List Nat) (maxsize : Nat) (s : State)
    (hep : ep < 16) (h64 : callerCount data.length maxsize ≤ 64) :
    ∃ t, sendUSBPacket ep data maxsize s = some t ∧
      data1Flag (t.EPxBufferControlIn ep) = (if ep = 0 then true else s.epXdata0 ep) ∧
      t.epXdata0 ep = (!data1Flag (t.EPxBufferControlIn ep)) := by
  have hcount : (if 0 < maxsize ∧ maxsize < data.length then maxsize else data.length)
      = callerCount data.length maxsize := by
    unfold callerCount
    split_ifs <;> omega
  have hle : callerCount data.length maxsize ≤ data.length := by
    unfold callerCount
    split_ifs <;> omega
  by_cases h0 : ep = 0
  · subst h0
    obtain ⟨t, ht, _, _, _, _, _, _, c5, c6, _⟩ := sendViaEPIn_packet 0 data
      (callerCount data.length maxsize)
      { s with
        sendOnEP0DATADONE := { s.sendOnEP0DATADONE with offset := 0 }
        epXdata0 := Function.update s.epXdata0 0 true } hep hle h64
    simp only [Function.update_same, if_true] at c5 c6
    have hf : data1Flag (t.EPxBufferControlIn 0) = true := by
      unfold data1Flag; rw [c5]; decide
    refine ⟨t, ?_, by rw [hf]; rfl, by rw [hf, c6]⟩
    have hbig : ¬ callerCount data.length maxsize > EndpointPacketSize := by
      unfold EndpointPacketSize; omega
    simp only [sendUSBPacket, hcount, if_true, if_neg hbig]
    exact ht
  · obtain ⟨t, ht, _, _, _, _, _, _, c5, c6, _⟩ := sendViaEPIn_packet ep data
      (callerCount data.length maxsize) s hep hle h64
    have hf : data1Flag (t.EPxBufferControlIn ep) = s.epXdata0 ep := by
      unfold data1Flag
      rw [c5]
      exact data1Pid_ite_ne_zero (s.epXdata0 ep)
    refine ⟨t, ?_, by rw [hf, if_neg h0], by rw [hf, c6]⟩
    simp only [sendUSBPacket, hcount, if_neg h0]
    exact ht

/-- The tracked bit after a run of single-packet sends, and the flag of the
last packet when the run is not empty. -/
theorem sendRun_bits (ep : Nat) (hep : ep < 16) (s : State) (sends : List (List Nat × Nat)) :
    (∀ p ∈ sends, callerCount p.1.length p.2 ≤ 64) →
    ∃ t, sendRun ep sends s = some t ∧
      (ep ≠ 0 → t.epXdata0 ep = xor (s.epXdata0 ep) (decide (sends.length % 2 = 1))) ∧
      (sends ≠ [] →
        data1Flag (t.EPxBufferControlIn ep) =
          (if ep = 0 then true
            else !(xor (s.epXdata0 ep) (decide (sends.length % 2 = 1)))) ∧
        t.epXdata0 ep = (!data1Flag (t.EPxBufferControlIn ep))) := by
  induction sends using List.reverseRecOn with
  | nil =>
    intro _
    exact ⟨s, rfl, fun _ => by simp, fun h => absurd rfl h⟩
  | append_singleton l p ih =>
    intro hs
    obtain ⟨u, hu, hbit, _⟩ := ih (fun q hq => hs q (List.mem_append_left _ hq))
    obtain ⟨t, ht, hflag, htr⟩ := sendUSBPacket_single ep p.1 p.2 u hep
      (hs p (List.mem_append_right _ (List.mem_singleton_self p)))
    have hrun : sendRun ep (l ++ [p]) s = some t := by
      unfold sendRun at hu ⊢
      rw [List.foldlM_append, hu]
      simp only [Option.some_bind, Option.bind_eq_bind, List.foldlM_cons, List.foldlM_nil, ht]
      rfl
    have hpar : ∀ b : Bool, (!xor b (decide ((l ++ [p]).length % 2 = 1)))
        = xor b (decide (l.length % 2 = 1)) := by
      intro b
      rw [List.length_append, List.length_singleton]
      rcases Nat.mod_two_eq_zero_or_one l.length with h | h
      · have h2 : (l.length + 1) % 2 = 1 := by omega
        simp [h, h2]
      · have h2 : (l.length + 1) % 2 = 0 := by omega
        simp [h, h2]
    refine ⟨t, hrun, ?_, fun _ => ⟨?_, htr⟩⟩
    · intro h0
      rw [htr, hflag, if_neg h0, hbit h0, ← hpar, Bool.not_not]
    · rw [hflag]
      by_cases h0 : ep = 0
      · rw [if_pos h0, if_pos h0]
      · rw [if_neg h0, if_neg h0, hbit h0, hpar]

/-- The pairwise inequalities of the case constants of `initEndpoint`. -/
theorem configs_ne (env : Env) (hd : env.configsDistinct) :
    (env.ENDPOINT_TYPE_INTERRUPT ||| env.EndpointIn ≠ env.ENDPOINT_TYPE_BULK ||| env.EndpointOut ∧
     env.ENDPOINT_TYPE_INTERRUPT ||| env.EndpointIn
       ≠ env.ENDPOINT_TYPE_INTERRUPT ||| env.EndpointOut ∧
     env.ENDPOINT_TYPE_INTERRUPT ||| env.EndpointIn ≠ env.ENDPOINT_TYPE_BULK ||| env.EndpointIn ∧
     env.ENDPOINT_TYPE_INTERRUPT ||| env.EndpointIn ≠ env.ENDPOINT_TYPE_CONTROL) ∧
    (env.ENDPOINT_TYPE_BULK ||| env.EndpointOut
       ≠ env.ENDPOINT_TYPE_INTERRUPT ||| env.EndpointOut ∧
     env.ENDPOINT_TYPE_BULK ||| env.EndpointOut ≠ env.ENDPOINT_TYPE_BULK ||| env.EndpointIn ∧
     env.ENDPOINT_TYPE_BULK ||| env.EndpointOut ≠ env.ENDPOINT_TYPE_CONTROL) ∧
    (env.ENDPOINT_TYPE_INTERRUPT ||| env.EndpointOut
       ≠ env.ENDPOINT_TYPE_BULK ||| env.EndpointIn ∧
     env.ENDPOINT_TYPE_INTERRUPT ||| env.EndpointOut ≠ env.ENDPOINT_TYPE_CONTROL) ∧
    env.ENDPOINT_TYPE_BULK ||| env.EndpointIn ≠ env.ENDPOINT_TYPE_CONTROL := by
  unfold Env.configsDistinct Env.configs at hd
  simp only [List.nodup_cons, List.mem_cons, List.mem_singleton, not_or, List.not_mem_nil,
    not_false_eq_true, List.nodup_nil, and_true] at hd
  obtain ⟨⟨a1, a2, a3, a4⟩, ⟨b1, b2, b3⟩, ⟨c1, c2⟩, d1⟩ := hd
  exact ⟨⟨a1, a2, a3, a4⟩, ⟨b1, b2, b3⟩, ⟨c1, c2⟩, d1⟩

theorem initEndpoint_interruptIn (env : Env) (ep : Nat) (s : State) (hep : ep < 16) :
    initEndpoint env ep (env.ENDPOINT_TYPE_INTERRUPT ||| env.EndpointIn) s =
      some (setControlIn ep (usbEpControlEnable ||| usbEpControlInterruptPerBuff |||
        (ep * 2 * usbBufferLen + 0x100) % 2 ^ 32 ||| usbEpControlEndpointTypeInterrupt) s) := by
  simp only [initEndpoint, if_true, if_pos hep]

theorem initEndpoint_bulkOut (env : Env) (hd : env.configsDistinct) (ep : Nat) (s : State)
    (hep : ep < 16) :
    initEndpoint env ep (env.ENDPOINT_TYPE_BULK ||| env.EndpointOut) s =
      some (setBitsBufCtrlOut ep usbBuf0CtrlAvail
        (setBufCtrlOut ep (usbBufferLen &&& usbBuf0CtrlLenMask)
          (setControlOut ep (usbEpControlEnable ||| usbEpControlInterruptPerBuff |||
            (ep * 2 * usbBufferLen + 0x100) % 2 ^ 32 ||| usbEpControlEndpointTypeBulk) s))) := by
  obtain ⟨⟨a1, _, _, _⟩, _⟩ := configs_ne env hd
  simp only [initEndpoint, if_neg a1.symm, if_true, if_pos hep]

theorem initEndpoint_interruptOut (env : Env) (hd : env.configsDistinct) (ep : Nat) (s : State)
    (hep : ep < 16) :
    initEndpoint env ep (env.ENDPOINT_TYPE_INTERRUPT ||| env.EndpointOut) s =
      some (setBitsBufCtrlOut ep usbBuf0CtrlAvail
        (setBufCtrlOut ep (usbBufferLen &&& usbBuf0CtrlLenMask)
          (setControlOut ep (usbEpControlEnable ||| usbEpControlInterruptPerBuff |||
            (ep * 2 * usbBufferLen + 0x100) % 2 ^ 32 |||
            usbEpControlEndpointTypeInterrupt) s))) := by
  obtain ⟨⟨_, a2, _, _⟩, ⟨b1, _, _⟩, _⟩ := configs_ne env hd
  simp only [initEndpoint, if_neg a2.symm, if_neg b1.symm, if_true, if_pos hep]

theorem initEndpoint_bulkIn (env : Env) (hd : env.configsDistinct) (ep : Nat) (s : State)
    (hep : ep < 16) :
    initEndpoint env ep (env.ENDPOINT_TYPE_BULK ||| env.EndpointIn) s =
      some (setControlIn ep (usbEpControlEnable ||| usbEpControlInterruptPerBuff |||
        (ep * 2 * usbBufferLen + 0x100) % 2 ^ 32 ||| usbEpControlEndpointTypeBulk) s) := by
  obtain ⟨⟨_, _, a3, _⟩, ⟨_, b2, _⟩, ⟨c1, _⟩, _⟩ := configs_ne env hd
  simp only [initEndpoint, if_neg a3.symm, if_neg b2.symm, if_neg c1.symm, if_true, if_pos hep]

theorem initEndpoint_control (env : Env) (hd : env.configsDistinct) (ep : Nat) (s : State)
    (hep : ep < 16) :
    initEndpoint env ep env.ENDPOINT_TYPE_CONTROL s =
      some (setBitsBufCtrlOut ep usbBuf0CtrlAvail (setBufCtrlOut ep usbBuf0CtrlData1Pid s)) := by
  obtain ⟨⟨_, _, _, a4⟩, ⟨_, _, b3⟩, ⟨_, c2⟩, d1⟩ := configs_ne env hd
  simp only [initEndpoint, if_neg a4.symm, if_neg b3.symm, if_neg c2.symm, if_neg d1.symm,
    if_true, if_pos hep]

theorem sendStallViaEPIn_ep0 (env : Env) (s : State) :
    sendStallViaEPIn env 0 s = some (setBufCtrlIn 0 (usbBuf0CtrlFull ||| usbBuf0CtrlStall)
      (setBufCtrlIn 0 usbBuf0CtrlFull { s with EP_STALL_ARM := env.USB_EP_STALL_ARM_EP0_IN })) := by
  simp only [sendStallViaEPIn, if_true]
  rfl

theorem irqSetupReq_returns (env : Env) (s : State) : ∃ t, irqSetupReq env s = some t := by
  simp only [irqSetupReq]
  split_ifs
  · exact ⟨_, sendStallViaEPIn_ep0 env _⟩
  · exact ⟨_, rfl⟩

/-- An interrupt with only the bus-reset condition runs the bus-reset branch. -/
theorem handleUSBIRQ_reset_only (env : Env) (status s2 : Nat) (s : State)
    (hr : status &&& env.USB_INTS_BUS_RESET > 0) (hs : status &&& env.USB_INTS_SETUP_REQ = 0)
    (hb : status &&& env.USB_INTS_BUFF_STATUS = 0) :
    handleUSBIRQ env status s2 s = irqBusReset env s := by
  simp only [handleUSBIRQ, hs, hb, Nat.lt_irrefl, if_false, Option.some_bind, if_pos hr]

/-- An interrupt with the bus-reset condition ends with the bus-reset branch. -/
theorem handleUSBIRQ_reset_last (env : Env) (status s2 : Nat) (s t : State)
    (hr : status &&& env.USB_INTS_BUS_RESET > 0) (h : handleUSBIRQ env status s2 s = some t) :
    ∃ u, irqBusReset env u = some t := by
  simp only [handleUSBIRQ, if_pos hr, Option.bind_eq_some] at h
  obtain ⟨_, _, u, _, hu⟩ := h
  exact ⟨u, hu⟩

theorem irqBusReset_eq (env : Env) (hd : env.configsDistinct) (s : State) :
    irqBusReset env s = some (setBitsBufCtrlOut 0 usbBuf0CtrlAvail
      (setBufCtrlOut 0 usbBuf0CtrlData1Pid
        { s with SIE_STATUS := env.USB_SIE_STATUS_BUS_RESET, ADDR_ENDP := 0 })) := by
  simp only [irqBusReset]
  exact initEndpoint_control env hd 0 _ (by decide)

theorem initEndpoint_epXdata0 (env : Env) (ep config : Nat) (s t : State)
    (h : initEndpoint env ep config s = some t) : t.epXdata0 = s.epXdata0 := by
  simp only [initEndpoint] at h
  split_ifs at h <;> (injection h with h; subst h; rfl)

/-- An interrupt with only the SETUP condition runs the SETUP branch. -/
theorem handleUSBIRQ_setup_only (env : Env) (status s2 : Nat) (s : State)
    (hs : status &&& env.USB_INTS_SETUP_REQ > 0) (hb : status &&& env.USB_INTS_BUFF_STATUS = 0)
    (hr : status &&& env.USB_INTS_BUS_RESET = 0) :
    handleUSBIRQ env status s2 s = irqSetupReq env s := by
  simp only [handleUSBIRQ, hb, hr, Nat.lt_irrefl, if_false, if_pos hs]
  cases irqSetupReq env s <;> rfl

theorem irqSetupReq_eq (env : Env) (s : State) :
    irqSetupReq env s =
      if (routeSetup env (setupPacket env s) (setupState env s)).1 = false
      then sendStallViaEPIn env 0 (routeSetup env (setupPacket env s) (setupState env s)).2
      else some (routeSetup env (setupPacket env s) (setupState env s)).2 := rfl

theorem routeSetup_unclaimed (env : Env) (setup : Setup) (s : State)
    (h : Unclaimed env setup s) : routeSetup env setup s = (false, s) := by
  unfold routeSetup
  rcases h with ⟨hstd, hh⟩ | ⟨hstd, hh⟩
  · rw [if_pos hstd, hh]
  · rw [if_neg hstd]
    rcases hh with hh | hh | ⟨f, hf, hh⟩
    · rw [if_neg hh]
    · split_ifs <;> simp only [hh]
    · split_ifs
      · simp only [hf, hh]
      · rfl

/-- While the flag is clear and the window has not elapsed, the polling loop
goes on. -/
theorem routeSetup_claimed (env : Env) (setup : Setup) (s u : State)
    (h : Claimed env setup s u) : routeSetup env setup s = (true, u) := by
  unfold routeSetup
  rcases h with ⟨hstd, hh⟩ | ⟨hstd, hlt, f, hf, hh⟩
  · rw [if_pos hstd, hh]
  · rw [if_neg hstd, if_pos hlt]
    simp only [hf, hh]

theorem ackWait_skip (env : Env) (sie tm : Nat → Nat) :
    ∀ (n k fuel : Nat),
      (∀ i, k ≤ i → i < k + n → sie i &&& env.USB_SIE_STATUS_ACK_REC = 0 ∧ elapsed tm i < 570) →
      ackWait env sie tm (fuel + n) k = ackWait env sie tm fuel (k + n) := by
  intro n
  induction n with
  | zero => intro k fuel _; rfl
  | succ n ih =>
    intro k fuel h
    obtain ⟨h1, h2⟩ := h k (le_refl _) (by omega)
    have e : fuel + (n + 1) = (fuel + n) + 1 := by omega
    rw [e, ackWait, if_pos h1, if_neg (by omega)]
    rw [ih (k + 1) fuel (fun i hi1 hi2 => h i (by omega) (by omega))]
    congr 1
    omega

theorem sendUSBPacket_zlp (s : State) :
    ∃ t, sendUSBPacket 0 [] 0 s = some t ∧ t.ADDR_ENDP = s.ADDR_ENDP := by
  have e : sendUSBPacket 0 [] 0 s = sendViaEPIn 0 [] 0
      { s with
        sendOnEP0DATADONE := { s.sendOnEP0DATADONE with offset := 0 }
        epXdata0 := Function.update s.epXdata0 0 true } := by
    simp only [sendUSBPacket, List.length_nil, Nat.lt_irrefl, and_false, if_false, if_true,
      EndpointPacketSize, gt_iff_lt, Nat.not_lt_zero]
  rw [e, sendViaEPIn_eq 0 [] 0 _ 0 rfl (by decide) (le_refl _)]
  exact ⟨_, rfl, rfl⟩

/-! ### Properties kept by the operations -/

theorem foldlM_inv {α : Type} (P : State → Prop) (f : State → α → Option State)
    (hf : ∀ s a t, f s a = some t → P s → P t) :
    ∀ (l : List α) (s t : State), l.foldlM f s = some t → P s → P t := by
  intro l
  induction l with
  | nil => intro s t h hp; simp at h; rw [← h]; exact hp
  | cons a l ih =>
    intro s t h hp
    rw [List.foldlM_cons] at h
    cases hfa : f s a with
    | none => rw [hfa] at h; simp at h
    | some u =>
      rw [hfa] at h
      exact ih u t h (hf s a u hfa hp)

theorem foldlM_inv_returns {α : Type} (P : State → Prop) (f : State → α → Option State)
    (l : List α)
    (hr : ∀ s a, a ∈ l → P s → ∃ t, f s a = some t)
    (hf : ∀ s a t, f s a = some t → P s → P t) :
    ∀ s : State, P s → ∃ t, l.foldlM f s = some t ∧ P t := by
  induction l with
  | nil => intro s hp; exact ⟨s, rfl, hp⟩
  | cons a l ih =>
    intro s hp
    obtain ⟨u, hu⟩ := hr s a (List.mem_cons_self a l) hp
    obtain ⟨t, ht, hpt⟩ := ih (fun s b hb => hr s b (List.mem_cons_of_mem a hb)) u
      (hf s a u hu hp)
    exact ⟨t, by rw [List.foldlM_cons, hu]; exact ht, hpt⟩

theorem initEndpoint_keeps {P : State → Prop} (hc : InvClosed P) (env : Env) (ep config : Nat)
    (s t : State) (h : initEndpoint env ep config s = some t) (hp : P s) : P t := by
  simp only [initEndpoint] at h
  split_ifs at h <;> injection h with h <;> subst h
  · exact hc.frame s _ rfl rfl hp
  · exact hc.bitsAvail _ ep (hc.setLen _ ep (hc.frame s _ rfl rfl hp))
  · exact hc.bitsAvail _ ep (hc.setLen _ ep (hc.frame s _ rfl rfl hp))
  · exact hc.frame s _ rfl rfl hp
  · exact hc.bitsAvail _ ep (hc.setData1 _ ep hp)
  · exact hp

theorem handleEndpointRx_keeps {P : State → Prop} (hc : InvClosed P) (ep : Nat)
    (s : State) (r : List Nat × State) (h : handleEndpointRx ep s = some r) (hp : P s) :
    P r.2 := by
  simp only [handleEndpointRx] at h
  split_ifs at h
  injection h with h
  subst h
  exact hc.setLen s ep hp

theorem handleEndpointRxComplete_keeps {P : State → Prop} (hc : InvClosed P) (ep : Nat)
    (s t : State) (h : handleEndpointRxComplete ep s = some t) (hp : P s) : P t := by
  simp only [handleEndpointRxComplete] at h
  split_ifs at h <;> injection h with h <;> subst h
  · exact hc.bitsAvail _ ep (hc.bitsData1 _ ep (hc.frame s _ rfl rfl hp))
  · exact hc.bitsAvail _ ep (hc.frame s _ rfl rfl hp)

theorem sendViaEPIn_keeps {P : State → Prop} (hc : InvClosed P) (ep : Nat) (data : List Nat)
    (count : Nat) (s t : State) (h : sendViaEPIn ep data count s = some t) (hp : P s) : P t := by
  simp only [sendViaEPIn] at h
  split_ifs at h <;> (injection h with h; subst h; exact hc.frame s _ rfl rfl hp)

theorem sendUSBPacket_keeps {P : State → Prop} (hc : InvClosed P) (ep : Nat) (data : List Nat)
    (maxsize : Nat) (s t : State) (h : sendUSBPacket ep data maxsize s = some t) (hp : P s) :
    P t := by
  have hle : (if 0 < maxsize ∧ maxsize < data.length then maxsize else data.length)
      ≤ data.length := by
    split_ifs <;> omega
  simp only [sendUSBPacket] at h
  by_cases h0 : ep = 0
  · rw [if_pos h0] at h
    by_cases hbig : (if 0 < maxsize ∧ maxsize < data.length then maxsize else data.length)
        > EndpointPacketSize
    · rw [if_pos hbig] at h
      refine sendViaEPIn_keeps hc _ _ _ _ t h ?_
      exact hc.frame
        { s with sendOnEP0DATADONE :=
          { s.sendOnEP0DATADONE with offset := EndpointPacketSize, data := data } }
        _ rfl rfl (hc.startPending s data (by omega) hp)
    · rw [if_neg hbig] at h
      refine sendViaEPIn_keeps hc _ _ _ _ t h ?_
      exact hc.frame
        { s with sendOnEP0DATADONE := { s.sendOnEP0DATADONE with offset := 0 } }
        _ rfl rfl (hc.movePending s 0 (Nat.zero_le _) hp)
  · rw [if_neg h0] at h
    exact sendViaEPIn_keeps hc _ _ _ _ t h hp

theorem sendStallViaEPIn_keeps {P : State → Prop} (hc : InvClosed P) (env : Env) (ep : Nat)
    (s t : State) (h : sendStallViaEPIn env ep s = some t) (hp : P s) : P t := by
  simp only [sendStallViaEPIn] at h
  split_ifs at h <;> injection h with h <;> subst h <;> exact hc.frame s _ rfl rfl hp

theorem sendViaEPIn_pending (ep : Nat) (data : List Nat) (count : Nat) (s t : State)
    (h : sendViaEPIn ep data count s = some t) :
    t.sendOnEP0DATADONE = s.sendOnEP0DATADONE := by
  simp only [sendViaEPIn] at h
  split_ifs at h <;> (injection h with h; subst h; rfl)

theorem irqEP0DataDone_keeps {P : State → Prop} (hc : InvClosed P) (s t : State)
    (h : irqEP0DataDone s = some t) (hp : P s) : P t := by
  simp only [irqEP0DataDone, true_and] at h
  split_ifs at h with hle hbig
  all_goals
    obtain ⟨u, hu, hut⟩ := Option.map_eq_some'.1 h
    subst hut
    have hpu := sendViaEPIn_keeps hc _ _ _ _ u hu hp
    have hpend := sendViaEPIn_pending _ _ _ _ u hu
    refine hc.movePending u _ ?_ hpu
    rw [hpend]
    unfold EndpointPacketSize at *
    split_ifs <;> omega

theorem irqOutStep_keeps {P : State → Prop} (hc : InvClosed P) (env : Env)
    (hk : env.CallbacksKeep P) (s2 : Nat) (s : State) (i : Nat) (t : State)
    (h : irqOutStep env s2 s i = some t) (hp : P s) : P t := by
  simp only [irqOutStep] at h
  split_ifs at h
  · obtain ⟨r, hr, h⟩ := Option.bind_eq_some.1 h
    have hpr := handleEndpointRx_keeps hc i s r hr hp
    obtain ⟨u, hu, h⟩ := Option.bind_eq_some.1 h
    refine handleEndpointRxComplete_keeps hc i u t h ?_
    cases hh : env.usbRxHandler.get? i with
    | none => rw [hh] at hu; cases hu
    | some o =>
      cases o with
      | none => rw [hh] at hu; injection hu with hu; subst hu; exact hpr
      | some f =>
        rw [hh] at hu; injection hu with hu; subst hu
        exact hk.2.2.1 i f hh r.1 r.2 hpr
  · injection h with h; subst h; exact hp

theorem irqInStep_keeps {P : State → Prop} (env : Env) (hk : env.CallbacksKeep P) (s2 : Nat)
    (s : State) (i : Nat) (t : State) (h : irqInStep env s2 s i = some t) (hp : P s) : P t := by
  simp only [irqInStep] at h
  split_ifs at h
  · cases hh : env.usbTxHandler.get? i with
    | none => rw [hh] at h; cases h
    | some o =>
      cases o with
      | none => rw [hh] at h; injection h with h; subst h; exact hp
      | some f =>
        rw [hh] at h; injection h with h; subst h
        exact hk.2.2.2 i f hh s hp
  · injection h with h; subst h; exact hp

theorem irqBuffStatus_keeps {P : State → Prop} (hc : InvClosed P) (env : Env)
    (hk : env.CallbacksKeep P) (s2 : Nat) (s t : State)
    (h : irqBuffStatus env s2 s = some t) (hp : P s) : P t := by
  simp only [irqBuffStatus] at h
  obtain ⟨u, hu, h⟩ := Option.bind_eq_some.1 h
  obtain ⟨v, hv, h⟩ := Option.bind_eq_some.1 h
  obtain ⟨w, hw, h⟩ := Option.bind_eq_some.1 h
  injection h with h
  subst h
  have hpu : P u := by
    split_ifs at hu
    · exact irqEP0DataDone_keeps hc s u hu hp
    · injection hu with hu; subst hu; exact hp
  have hpv := foldlM_inv P (irqOutStep env s2) (irqOutStep_keeps hc env hk s2) _ u v hv hpu
  have hpw := foldlM_inv P (irqInStep env s2) (irqInStep_keeps env hk s2) _ v w hw hpv
  exact hc.frame w _ rfl rfl hpw

theorem routeSetup_keeps {P : State → Prop} (env : Env) (hk : env.CallbacksKeep P)
    (setup : Setup) (s : State) (hp : P s) : P (routeSetup env setup s).2 := by
  unfold routeSetup
  split_ifs
  · exact hk.1 setup s hp
  · cases hh : env.usbSetupHandler.get? setup.WIndex with
    | none => exact hp
    | some o =>
      cases o with
      | none => exact hp
      | some f => exact hk.2.1 _ f hh setup s hp
  · exact hp

theorem irqSetupReq_keeps {P : State → Prop} (hc : InvClosed P) (env : Env)
    (hk : env.CallbacksKeep P) (s t : State) (h : irqSetupReq env s = some t) (hp : P s) :
    P t := by
  rw [irqSetupReq_eq] at h
  have hps : P (setupState env s) := hc.frame s _ rfl rfl hp
  have hpr := routeSetup_keeps env hk (setupPacket env s) (setupState env s) hps
  split_ifs at h
  · exact sendStallViaEPIn_keeps hc env 0 _ t h hpr
  · injection h with h; subst h; exact hpr

theorem irqBusReset_keeps {P : State → Prop} (hc : InvClosed P) (env : Env) (s t : State)
    (h : irqBusReset env s = some t) (hp : P s) : P t := by
  simp only [irqBusReset] at h
  exact initEndpoint_keeps hc env 0 _ _ t h (hc.frame s _ rfl rfl hp)

/-- The interrupt handler keeps every property that the writes of the driver
and the callbacks keep. -/
theorem handleUSBIRQ_keeps {P : State → Prop} (hc : InvClosed P) (env : Env)
    (hk : env.CallbacksKeep P) (status s2 : Nat) (s t : State)
    (h : handleUSBIRQ env status s2 s = some t) (hp : P s) : P t := by
  simp only [handleUSBIRQ] at h
  obtain ⟨u, hu, h⟩ := Option.bind_eq_some.1 h
  obtain ⟨v, hv, h⟩ := Option.bind_eq_some.1 h
  have hpu : P u := by
    split_ifs at hu
    · exact irqSetupReq_keeps hc env hk s u hu hp
    · injection hu with hu; subst hu; exact hp
  have hpv : P v := by
    split_ifs at hv
    · exact irqBuffStatus_keeps hc env hk s2 u v hv hpu
    · injection hv with hv; subst hv; exact hpu
  split_ifs at h
  · exact irqBusReset_keeps hc env v t h hpv
  · injection h with h; subst h; exact hpv

theorem outWords_set (Q : Nat → Prop) (s : State) (ep v : Nat) (hv : Q v)
    (h : ∀ i, i < 16 → Q (s.EPxBufferControlOut i)) :
    ∀ i, i < 16 → Q ((setBufCtrlOut ep v s).EPxBufferControlOut i) := by
  intro i hi
  by_cases hie : i = ep
  · subst hie
    simp only [setBufCtrlOut, Function.update_same]
    exact hv
  · simp only [setBufCtrlOut, Function.update_noteq hie]
    exact h i hi

theorem outWords_bits (Q : Nat → Prop) (s : State) (ep b : Nat) (hb : ∀ w, Q w → Q (w ||| b))
    (h : ∀ i, i < 16 → Q (s.EPxBufferControlOut i)) :
    ∀ i, i < 16 → Q ((setBitsBufCtrlOut ep b s).EPxBufferControlOut i) := by
  intro i hi
  by_cases hie : i = ep
  · subst hie
    simp only [setBitsBufCtrlOut, setBufCtrlOut, Function.update_same]
    exact hb _ (h i hi)
  · simp only [setBitsBufCtrlOut, setBufCtrlOut, Function.update_noteq hie]
    exact h i hi

theorem lor_land_of_disjoint (w b m : Nat) (hb : b &&& m = 0) : (w ||| b) &&& m = w &&& m := by
  rw [Nat.and_distrib_right, hb, Nat.or_zero]

theorem invClosed_IrqSafe : InvClosed IrqSafe where
  frame := by
    intro s t h1 h2 hp
    unfold IrqSafe RxLenOK PendingOK at *
    rw [h1, h2]
    exact hp
  setLen := fun s ep hp =>
    ⟨outWords_set (fun w => w &&& usbBuf0CtrlLenMask ≤ usbBufferLen) s ep _ (by decide) hp.1, hp.2⟩
  setData1 := fun s ep hp =>
    ⟨outWords_set (fun w => w &&& usbBuf0CtrlLenMask ≤ usbBufferLen) s ep _ (by decide) hp.1, hp.2⟩
  bitsData1 := fun s ep hp =>
    ⟨outWords_bits (fun w => w &&& usbBuf0CtrlLenMask ≤ usbBufferLen) s ep _
      (fun w hw => by
        show (w ||| usbBuf0CtrlData1Pid) &&& usbBuf0CtrlLenMask ≤ usbBufferLen
        rw [lor_land_of_disjoint _ _ _ (by decide)]; exact hw) hp.1, hp.2⟩
  bitsAvail := fun s ep hp =>
    ⟨outWords_bits (fun w => w &&& usbBuf0CtrlLenMask ≤ usbBufferLen) s ep _
      (fun w hw => by
        show (w ||| usbBuf0CtrlAvail) &&& usbBuf0CtrlLenMask ≤ usbBufferLen
        rw [lor_land_of_disjoint _ _ _ (by decide)]; exact hw) hp.1, hp.2⟩
  clearOut := by
    intro s hp
    refine ⟨?_, hp.2⟩
    intro i hi
    simp only [if_pos hi, Nat.zero_and]
    exact Nat.zero_le _
  startPending := by
    intro s data hd hp
    refine ⟨hp.1, ?_⟩
    show EndpointPacketSize ≤ data.length
    omega
  movePending := fun s o ho hp => ⟨hp.1, ho⟩

theorem invClosed_OutNotFull : InvClosed OutNotFull where
  frame := by
    intro s t h1 _ hp
    unfold OutNotFull at *
    rw [h1]
    exact hp
  setLen := fun s ep hp =>
    outWords_set (fun w => w &&& usbBuf0CtrlFull = 0) s ep _ (by decide) hp
  setData1 := fun s ep hp =>
    outWords_set (fun w => w &&& usbBuf0CtrlFull = 0) s ep _ (by decide) hp
  bitsData1 := fun s ep hp =>
    outWords_bits (fun w => w &&& usbBuf0CtrlFull = 0) s ep _
      (fun w hw => by
        show (w ||| usbBuf0CtrlData1Pid) &&& usbBuf0CtrlFull = 0
        rw [lor_land_of_disjoint _ _ _ (by decide)]; exact hw) hp
  bitsAvail := fun s ep hp =>
    outWords_bits (fun w => w &&& usbBuf0CtrlFull = 0) s ep _
      (fun w hw => by
        show (w ||| usbBuf0CtrlAvail) &&& usbBuf0CtrlFull = 0
        rw [lor_land_of_disjoint _ _ _ (by decide)]; exact hw) hp
  clearOut := by
    intro s _ i hi
    simp only [if_pos hi, Nat.zero_and]
  startPending := fun _ _ _ hp => hp
  movePending := fun _ _ _ hp => hp

/-! ### The receive path -/

theorem foldlM_id {α : Type} (f : State → α → Option State) :
    ∀ (l : List α), (∀ s b, b ∈ l → f s b = some s) → ∀ s, l.foldlM f s = some s := by
  intro l
  induction l with
  | nil => intro _ s; rfl
  | cons b l ih =>
    intro h s
    rw [List.foldlM_cons, h s b (List.mem_cons_self b l)]
    exact ih (fun s c hc => h s c (List.mem_cons_of_mem b hc)) s

theorem foldlM_single {α : Type} (f : State → α → Option State) (a : α) :
    ∀ (l : List α), l.Nodup → a ∈ l → (∀ s b, b ∈ l → b ≠ a → f s b = some s) →
      ∀ s, l.foldlM f s = f s a := by
  intro l
  induction l with
  | nil => intro _ ha; cases ha
  | cons b l ih =>
    intro hnd ha h s
    rw [List.foldlM_cons]
    obtain ⟨hb, hnd2⟩ := List.nodup_cons.1 hnd
    by_cases hba : b = a
    · subst hba
      cases hfa : f s b with
      | none => rfl
      | some u =>
        exact foldlM_id f l (fun s c hc => h s c (List.mem_cons_of_mem b hc)
          (fun hcb => hb (hcb ▸ hc))) u
    · rw [h s b (List.mem_cons_self b l) hba]
      have ha2 : a ∈ l := by
        rcases List.mem_cons.1 ha with h1 | h1
        · exact absurd h1.symm hba
        · exact h1
      exact ih hnd2 ha2 (fun s c hc => h s c (List.mem_cons_of_mem b hc)) s

theorem outBit_single : ∀ ep, ep < 16 → ∀ i, i < 16 →
    ((1 <<< (ep * 2 + 1)) &&& (1 <<< (i * 2 + 1)) > 0 ↔ i = ep) := by decide

theorem inBit_single : ∀ ep, ep < 16 → ∀ i, i < 16 →
    ¬ ((1 <<< (ep * 2 + 1)) &&& (1 <<< (i * 2)) > 0) := by decide

theorem range_map_copyBuffer (old : Nat → Nat) (bytes : List Nat)
    (h : bytes.length ≤ usbBufferLen) :
    (List.range bytes.length).map (copyBuffer old bytes) = bytes := by
  apply List.ext_getElem
  · simp
  · intro n h1 h2
    have hn : n < min usbBufferLen bytes.length := by omega
    simp only [List.getElem_map, List.getElem_range, copyBuffer, if_pos hn]
    rw [List.getD_eq_getElem?_getD, List.getElem?_eq_getElem h2]
    rfl

/-- The continuation of a pending EP0 transfer returns when the pending context
is well formed, and touches neither the OUT buffer-control words nor the
buffers of the endpoints other than endpoint 0. -/
theorem irqCont_returns (s : State) (hp : PendingOK s) :
    ∃ u, (if s.sendOnEP0DATADONE.offset > 0 then irqEP0DataDone s else some s) = some u ∧
      u.EPxBufferControlOut = s.EPxBufferControlOut ∧
      (∀ i, i ≠ 0 → u.EPxBuffer0 i = s.EPxBuffer0 i) := by
  by_cases h0 : s.sendOnEP0DATADONE.offset > 0
  · rw [if_pos h0]
    have hcnt : (if s.sendOnEP0DATADONE.data.length - s.sendOnEP0DATADONE.offset
        > EndpointPacketSize then EndpointPacketSize
        else s.sendOnEP0DATADONE.data.length - s.sendOnEP0DATADONE.offset) ≤
        (s.sendOnEP0DATADONE.data.drop s.sendOnEP0DATADONE.offset).length := by
      rw [List.length_drop]
      unfold EndpointPacketSize
      split_ifs <;> omega
    have hp2 : s.sendOnEP0DATADONE.offset ≤ s.sendOnEP0DATADONE.data.length := hp
    simp only [irqEP0DataDone, true_and, if_pos hp2]
    rw [sendViaEPIn_eq 0 _ _ s 0 rfl (by decide) hcnt, Option.map_some']
    refine ⟨_, rfl, rfl, ?_⟩
    intro i hi
    exact Function.update_noteq hi _ _
  · rw [if_neg h0]
    exact ⟨s, rfl, rfl, fun _ _ => rfl⟩

theorem lor_land_self (x b : Nat) : (x ||| b) &&& b = b := by
  apply Nat.eq_of_testBit_eq
  intro k
  simp only [Nat.testBit_and, Nat.testBit_or]
  cases x.testBit k <;> cases b.testBit k <;> rfl

/-- The receive path of the OUT loop for an endpoint whose bit is set, whose
length field is within the buffer and whose table entry is `o`. -/
theorem irqOutStep_rx (env : Env) (s2 : Nat) (u : State) (ep : Nat)
    (o : Option (List Nat → State → State))
    (hbit : s2 &&& (1 <<< (ep * 2 + 1)) > 0) (h16 : ep < 16)
    (hlen : u.EPxBufferControlOut ep &&& usbBuf0CtrlLenMask ≤ usbBufferLen)
    (ho : env.usbRxHandler.get? ep = some o) :
    irqOutStep env s2 u ep =
      handleEndpointRxComplete ep
        (callRx o ((List.range (u.EPxBufferControlOut ep &&& usbBuf0CtrlLenMask)).map
            (u.EPxBuffer0 ep))
          (setBufCtrlOut ep (usbBufferLen &&& usbBuf0CtrlLenMask) u)) := by
  simp only [irqOutStep, if_pos hbit, handleEndpointRx, if_pos h16, if_pos hlen,
    Option.some_bind, ho]
  cases o <;> rfl

/-- The OUT buffer-control word after `handleEndpointRxComplete`: the length
field is as before and the available flag is set. -/
theorem handleEndpointRxComplete_word (ep : Nat) (v : State) (h16 : ep < 16) :
    ∃ t, handleEndpointRxComplete ep v = some t ∧
      t.EPxBufferControlOut ep &&& usbBuf0CtrlLenMask
        = v.EPxBufferControlOut ep &&& usbBuf0CtrlLenMask ∧
      t.EPxBufferControlOut ep &&& usbBuf0CtrlAvail = usbBuf0CtrlAvail := by
  simp only [handleEndpointRxComplete, if_pos h16]
  split_ifs
  · refine ⟨_, rfl, ?_, ?_⟩
    · simp only [setBitsBufCtrlOut, setBufCtrlOut, Function.update_same]
      rw [lor_land_of_disjoint _ _ _ (by decide), lor_land_of_disjoint _ _ _ (by decide)]
    · simp only [setBitsBufCtrlOut, setBufCtrlOut, Function.update_same]
      exact lor_land_self _ _
  · refine ⟨_, rfl, ?_, ?_⟩
    · simp only [setBitsBufCtrlOut, setBufCtrlOut, Function.update_same]
      rw [lor_land_of_disjoint _ _ _ (by decide)]
    · simp only [setBitsBufCtrlOut, setBufCtrlOut, Function.update_same]
      exact lor_land_self _ _

/-- An interrupt with only the buffer-status condition runs the buffer-status
branch. -/
theorem handleUSBIRQ_buff_only (env : Env) (status s2 : Nat) (s : State)
    (hb : status &&& env.USB_INTS_BUFF_STATUS > 0) (hs : status &&& env.USB_INTS_SETUP_REQ = 0)
    (hr : status &&& env.USB_INTS_BUS_RESET = 0) :
    handleUSBIRQ env status s2 s = irqBuffStatus env s2 s := by
  simp only [handleUSBIRQ, hs, hr, Nat.lt_irrefl, if_false, if_pos hb, Option.some_bind]
  cases irqBuffStatus env s2 s <;> rfl

/-- The buffer-status branch when the only completed buffer is the OUT buffer
of endpoint `ep`: after the continuation of a pending EP0 transfer, which ends
in `u`, the branch is the receive path of the endpoint. -/
theorem irqBuffStatus_single_out (env : Env) (s u : State) (ep : Nat) (h16 : ep < 16)
    (hu : (if s.sendOnEP0DATADONE.offset > 0 then irqEP0DataDone s else some s) = some u) :
    irqBuffStatus env (1 <<< (ep * 2 + 1)) s =
      (irqOutStep env (1 <<< (ep * 2 + 1)) u ep).map
        fun t => { t with BUFF_STATUS := 1 <<< (ep * 2 + 1) } := by
  have hout : ∀ v, (List.range 16).foldlM (irqOutStep env (1 <<< (ep * 2 + 1))) v
      = irqOutStep env (1 <<< (ep * 2 + 1)) v ep := by
    apply foldlM_single _ ep _ (List.nodup_range 16) (List.mem_range.2 h16)
    intro v b hb hne
    have := (outBit_single ep h16 b (List.mem_range.1 hb)).not.2 hne
    simp only [irqOutStep, if_neg this]
  have hin : ∀ v, (List.range 16).foldlM (irqInStep env (1 <<< (ep * 2 + 1))) v = some v := by
    apply foldlM_id
    intro v b hb
    simp only [irqInStep, if_neg (inBit_single ep h16 b (List.mem_range.1 hb))]
  simp only [irqBuffStatus, hu, Option.some_bind, hout]
  cases irqOutStep env (1 <<< (ep * 2 + 1)) u ep with
  | none => rfl
  | some v => simp only [Option.some_bind, hin, Option.map_some']

/-! ### The interrupt handler on a well-formed state -/

theorem irqOutStep_returns (env : Env) (s2 : Nat) (hrx : 16 ≤ env.usbRxHandler.length)
    (s : State) (i : Nat) (hi : i < 16) (hp : IrqSafe s) :
    ∃ t, irqOutStep env s2 s i = some t := by
  by_cases hbit : s2 &&& (1 <<< (i * 2 + 1)) > 0
  · have hi2 : i < env.usbRxHandler.length := by omega
    rw [irqOutStep_rx env s2 s i (env.usbRxHandler.get ⟨i, hi2⟩) hbit hi (hp.1 i hi)
      (List.get?_eq_get hi2)]
    obtain ⟨t, ht, _⟩ := handleEndpointRxComplete_word i
      (callRx (env.usbRxHandler.get ⟨i, hi2⟩)
        ((List.range (s.EPxBufferControlOut i &&& usbBuf0CtrlLenMask)).map (s.EPxBuffer0 i))
        (setBufCtrlOut i (usbBufferLen &&& usbBuf0CtrlLenMask) s)) hi
    exact ⟨t, ht⟩
  · simp only [irqOutStep, if_neg hbit]
    exact ⟨s, rfl⟩

theorem irqInStep_returns (env : Env) (s2 : Nat) (htx : 16 ≤ env.usbTxHandler.length)
    (s : State) (i : Nat) (hi : i < 16) : ∃ t, irqInStep env s2 s i = some t := by
  have hi2 : i < env.usbTxHandler.length := by omega
  simp only [irqInStep]
  split_ifs
  · rw [List.get?_eq_get hi2]
    cases env.usbTxHandler.get ⟨i, hi2⟩ <;> exact ⟨_, rfl⟩
  · exact ⟨s, rfl⟩

theorem irqBuffStatus_safe (env : Env) (hk : env.CallbacksKeep IrqSafe)
    (hrx : 16 ≤ env.usbRxHandler.length) (htx : 16 ≤ env.usbTxHandler.length)
    (s2 : Nat) (s : State) (hp : IrqSafe s) :
    ∃ t, irqBuffStatus env s2 s = some t ∧ IrqSafe t := by
  obtain ⟨u, hu, _, _⟩ := irqCont_returns s hp.2
  have hpu : IrqSafe u := by
    split_ifs at hu
    · exact irqEP0DataDone_keeps invClosed_IrqSafe s u hu hp
    · injection hu with hu; subst hu; exact hp
  obtain ⟨v, hv, hpv⟩ := foldlM_inv_returns IrqSafe (irqOutStep env s2) (List.range 16)
    (fun s i hi hps => irqOutStep_returns env s2 hrx s i (List.mem_range.1 hi) hps)
    (irqOutStep_keeps invClosed_IrqSafe env hk s2) u hpu
  obtain ⟨w, hw, hpw⟩ := foldlM_inv_returns IrqSafe (irqInStep env s2) (List.range 16)
    (fun s i hi _ => irqInStep_returns env s2 htx s i (List.mem_range.1 hi))
    (irqInStep_keeps env hk s2) v hpv
  refine ⟨{ w with BUFF_STATUS := s2 }, ?_, invClosed_IrqSafe.frame w _ rfl rfl hpw⟩
  simp only [irqBuffStatus, hu, hv, hw, Option.some_bind]

/-- From a well-formed state, with tables that cover the 16 endpoints and
callbacks that keep the state well formed, the interrupt handler returns a
well-formed state. -/
theorem handleUSBIRQ_safe (env : Env) (hk : env.CallbacksKeep IrqSafe)
    (hrx : 16 ≤ env.usbRxHandler.length) (htx : 16 ≤ env.usbTxHandler.length)
    (status s2 : Nat) (s : State) (hp : IrqSafe s) :
    ∃ t, handleUSBIRQ env status s2 s = some t ∧ IrqSafe t := by
  have h1 : ∃ u, (if status &&& env.USB_INTS_SETUP_REQ > 0 then irqSetupReq env s else some s)
      = some u ∧ IrqSafe u := by
    split_ifs
    · obtain ⟨u, hu⟩ := irqSetupReq_returns env s
      exact ⟨u, hu, irqSetupReq_keeps invClosed_IrqSafe env hk s u hu hp⟩
    · exact ⟨s, rfl, hp⟩
  obtain ⟨u, hu, hpu⟩ := h1
  have h2 : ∃ v, (if status &&& env.USB_INTS_BUFF_STATUS > 0 then irqBuffStatus env s2 u
      else some u) = some v ∧ IrqSafe v := by
    split_ifs
    · exact irqBuffStatus_safe env hk hrx htx s2 u hpu
    · exact ⟨u, rfl, hpu⟩
  obtain ⟨v, hv, hpv⟩ := h2
  have h3 : ∃ t, (if status &&& env.USB_INTS_BUS_RESET > 0 then irqBusReset env v else some v)
      = some t ∧ IrqSafe t := by
    split_ifs
    · obtain ⟨t, ht⟩ := irqBusReset_returns env v
      exact ⟨t, ht, irqBusReset_keeps invClosed_IrqSafe env v t ht hpv⟩
    · exact ⟨v, rfl, hpv⟩
  obtain ⟨t, ht, hpt⟩ := h3
  exact ⟨t, by simp only [handleUSBIRQ, hu, hv, ht, Option.some_bind], hpt⟩

theorem handleEndpointRx_returns_iff (ep : Nat) (v : State) (h16 : ep < 16) :
    (∃ r, handleEndpointRx ep v = some r ∧
        r.1.length = v.EPxBufferControlOut ep &&& usbBuf0CtrlLenMask) ↔
      v.EPxBufferControlOut ep &&& usbBuf0CtrlLenMask ≤ usbBufferLen := by
  simp only [handleEndpointRx, if_pos h16]
  constructor
  · rintro ⟨r, hr, _⟩
    split_ifs at hr with h
    exact h
  · intro h
    rw [if_pos h]
    exact ⟨_, rfl, by simp⟩

/-- The callbacks of `rp2350Callbacks` keep a property that reads only the OUT
buffer-control words and the pending context. -/
theorem rp2350Callbacks_keep {P : State → Prop} (hc : InvClosed P) :
    rp2350Callbacks.CallbacksKeep P := by
  refine ⟨fun _ s hp => hp, ?_, ?_, ?_⟩
  · intro i h hh
    have := eq_of_get?_replicate _ _ _ _ hh
    cases this
  · intro i h hh buf s hp
    have hf := eq_of_get?_replicate _ _ _ _ hh
    injection hf with hf
    subst hf
    exact hc.frame s _ rfl rfl hp
  · intro i h hh s hp
    have hf := eq_of_get?_replicate _ _ _ _ hh
    injection hf with hf
    subst hf
    unfold sendOneByte
    rw [sendViaEPIn_eq 1 [7] 1 s 1 rfl (by decide) (by decide)]
    exact hc.frame s _ rfl rfl hp

/-! ### Runs of operations -/

theorem clear_keeps {P : State → Prop} (hc : InvClosed P) (s : State) (hp : P s) :
    P (usbDPSRAM.clear s) :=
  hc.frame { s with
      EPxBufferControlOut := fun i => if i < 16 then 0 else s.EPxBufferControlOut i }
    (usbDPSRAM.clear s) rfl rfl (hc.clearOut s hp)

theorem clear_OutNotFull (s : State) : OutNotFull (usbDPSRAM.clear s) := by
  intro i hi
  simp only [usbDPSRAM.clear, if_pos hi, Nat.zero_and]

theorem Op.run_keeps {P : State → Prop} (hc : InvClosed P) (env : Env)
    (hk : env.CallbacksKeep P) (op : Op) (s t : State) (h : op.run env s = some t)
    (hp : P s) : P t := by
  cases op with
  | clear =>
    simp only [Op.run] at h
    injection h with h
    subst h
    exact clear_keeps hc s hp
  | initEndpoint ep config => exact initEndpoint_keeps hc env ep config s t h hp
  | sendUSBPacket ep data maxsize => exact sendUSBPacket_keeps hc ep data maxsize s t h hp
  | sendViaEPIn ep data count => exact sendViaEPIn_keeps hc ep data count s t h hp
  | sendStallViaEPIn ep => exact sendStallViaEPIn_keeps hc env ep s t h hp
  | handleEndpointRx ep =>
    simp only [Op.run] at h
    obtain ⟨r, hr, hrt⟩ := Option.map_eq_some'.1 h
    subst hrt
    exact handleEndpointRx_keeps hc ep s r hr hp
  | handleEndpointRxComplete ep => exact handleEndpointRxComplete_keeps hc ep s t h hp
  | handleUSBIRQ status s2 => exact handleUSBIRQ_keeps hc env hk status s2 s t h hp

theorem runOps_keeps {P : State → Prop} (hc : InvClosed P) (env : Env)
    (hk : env.CallbacksKeep P) (ops : List Op) (s t : State) (h : runOps env ops s = some t)
    (hp : P s) : P t := by
  unfold runOps at h
  exact foldlM_inv P (fun (s : State) (op : Op) => op.run env s)
    (fun s op t h hp => Op.run_keeps hc env hk op s t h hp) ops s t h hp

theorem sendStallViaEPIn_word (env : Env) (ep : Nat) (s u : State) (h16 : ep < 16)
    (h : sendStallViaEPIn env ep s = some u) :
    u.EPxBufferControlIn ep = usbBuf0CtrlFull ||| usbBuf0CtrlStall := by
  have h7 := and_7F_of_lt ep h16
  simp only [sendStallViaEPIn, h7, if_pos h16] at h
  injection h with h
  subst h
  simp only [setBufCtrlIn, Function.update_same]

/-! ### The shared data-sequence bit -/

/-- One packet sent by `sendViaEPIn`: the DATA1 flag written is the tracked bit
before the call, the tracked bit is toggled and the OUT buffer-control words
are as before. -/
theorem sendViaEPIn_flag (ep : Nat) (data : List Nat) (count : Nat) (s : State)
    (hep : ep < 16) (hc : count ≤ data.length) (h64 : count ≤ 64) :
    ∃ t, sendViaEPIn ep data count s = some t ∧
      data1Flag (t.EPxBufferControlIn ep) = s.epXdata0 ep ∧
      t.epXdata0 ep = (!(s.epXdata0 ep)) ∧
      t.EPxBufferControlOut = s.EPxBufferControlOut := by
  obtain ⟨t, ht, _, _, _, _, _, _, c5, c6, _⟩ := sendViaEPIn_packet ep data count s hep hc h64
  refine ⟨t, ht, ?_, c6, ?_⟩
  · unfold data1Flag
    rw [c5]
    exact data1Pid_ite_ne_zero (s.epXdata0 ep)
  · rw [sendViaEPIn_eq ep data count s ep (and_7F_of_lt ep hep) hep hc] at ht
    injection ht with ht
    subst ht
    rfl

theorem data1Flag_lor_avail (w : Nat) : data1Flag (w ||| usbBuf0CtrlAvail) = data1Flag w := by
  unfold data1Flag
  rw [lor_land_of_disjoint _ _ _ (by decide)]

theorem data1Flag_lor_data1 (w : Nat) : data1Flag (w ||| usbBuf0CtrlData1Pid) = true := by
  unfold data1Flag
  rw [lor_land_self]
  decide

/-- The function `handleEndpointRxComplete` on an endpoint below 16: the
tracked bit is toggled, and the DATA1 flag of the OUT buffer-control word is
set when it was set, when the new tracked bit is true, or on endpoint 0. -/
theorem handleEndpointRxComplete_flag (ep : Nat) (x : State) (hep : ep < 16) :
    ∃ u, handleEndpointRxComplete ep x = some u ∧
      u.epXdata0 ep = (!(x.epXdata0 ep)) ∧
      data1Flag (u.EPxBufferControlOut ep) =
        (data1Flag (x.EPxBufferControlOut ep) || (!(x.epXdata0 ep) || decide (ep = 0))) := by
  simp only [handleEndpointRxComplete, if_pos hep, Function.update_same]
  split_ifs with h
  · refine ⟨_, rfl, ?_, ?_⟩
    · simp only [setBitsBufCtrlOut, setBufCtrlOut, Function.update_same]
    · simp only [setBitsBufCtrlOut, setBufCtrlOut, Function.update_same]
      rw [data1Flag_lor_avail, data1Flag_lor_data1]
      rcases h with h | h
      · simp [h]
      · simp [h]
  · refine ⟨_, rfl, ?_, ?_⟩
    · simp only [setBitsBufCtrlOut, setBufCtrlOut, Function.update_same]
    · simp only [setBitsBufCtrlOut, setBufCtrlOut, Function.update_same]
      rw [data1Flag_lor_avail]
      have h1 : (!(x.epXdata0 ep)) = false := by
        cases hb : (!(x.epXdata0 ep))
        · rfl
        · exact absurd (Or.inl hb) h
      have h2 : ep ≠ 0 := fun h0 => h (Or.inr h0)
      simp [h1, h2]

/-- A completed reception, `handleEndpointRx` then `handleEndpointRxComplete`:
the tracked bit is toggled, and the DATA1 flag of the re-armed OUT
buffer-control word is set when the new tracked bit is true or the endpoint is
endpoint 0. -/
theorem reception_flag (ep : Nat) (s : State) (hep : ep < 16)
    (hlen : s.EPxBufferControlOut ep &&& usbBuf0CtrlLenMask ≤ usbBufferLen) :
    ∃ r u, handleEndpointRx ep s = some r ∧ handleEndpointRxComplete ep r.2 = some u ∧
      u.epXdata0 ep = (!(s.epXdata0 ep)) ∧
      data1Flag (u.EPxBufferControlOut ep) = (!(s.epXdata0 ep) || decide (ep = 0)) := by
  have hr : handleEndpointRx ep s =
      some ((List.range (s.EPxBufferControlOut ep &&& usbBuf0CtrlLenMask)).map (s.EPxBuffer0 ep),
        setBufCtrlOut ep (usbBufferLen &&& usbBuf0CtrlLenMask) s) := by
    simp only [handleEndpointRx, if_pos hep, if_pos hlen]
    rfl
  obtain ⟨u, hu, h1, h2⟩ := handleEndpointRxComplete_flag ep
    (setBufCtrlOut ep (usbBufferLen &&& usbBuf0CtrlLenMask) s) hep
  refine ⟨_, u, hr, hu, h1, ?_⟩
  rw [h2]
  have h3 : data1Flag ((setBufCtrlOut ep (usbBufferLen &&& usbBuf0CtrlLenMask) s).EPxBufferControlOut
      ep) = false := by
    simp only [setBufCtrlOut, Function.update_same]
    decide
  rw [h3, Bool.false_or]
  rfl

/-! ## The claims -/

/-- C1. A payload `data` of length `L` sent with `sendUSBPacket(0, data, 0)` and
continued by buffer-status interrupts, the callbacks making no send on
endpoint 0: after the first packet and `n` interrupts the packets written for
endpoint 0 are the first `min (n + 1) N` slices `data[64*(k-1) : min(64*k, L)]`,
each with its length in the buffer-control word, where `N = max(1, ceil(L/64))`;
the pending offset is zero exactly when all `N` packets are written; the `N`
slices concatenated are `data`. The run returns when the interrupts report no
completed OUT buffer and the TX table covers the 16 endpoints. -/
theorem ep0_chunked_transfer (env : Env) (data : List Nat) (s : State)
    (hrx : ∀ i f, env.usbRxHandler.get? i = some (some f) → ∀ buf t, KeepsEP0 t (f buf t))
    (htx : ∀ i f, env.usbTxHandler.get? i = some (some f) → ∀ t, KeepsEP0 t (f t)) :
    (∃ s0, sendUSBPacket 0 data 0 s = some s0 ∧
      ∀ irqs : List (Nat × Nat),
        (∀ q ∈ irqs, q.1 &&& env.USB_INTS_BUFF_STATUS > 0 ∧ q.1 &&& env.USB_INTS_SETUP_REQ = 0) →
        (∀ t, irqRun env irqs s0 = some t →
          ep0Packets t = ep0Packets s ++
            (List.range (min (irqs.length + 1) (ep0PacketCount data.length))).map
              (fun j => (ep0Chunk data (j + 1), (ep0Chunk data (j + 1)).length)) ∧
          (t.sendOnEP0DATADONE.offset = 0 ↔ ep0PacketCount data.length ≤ irqs.length + 1)) ∧
        ((∀ q ∈ irqs, q.2 &&& 0xAAAAAAAA = 0) → 16 ≤ env.usbTxHandler.length →
          ∃ t, irqRun env irqs s0 = some t)) ∧
    ((List.range (ep0PacketCount data.length)).map (fun j => ep0Chunk data (j + 1))).flatten
      = data := by
  constructor
  · obtain ⟨s0, hs0, hsent⟩ := sendUSBPacket_ep0_first data s
    refine ⟨s0, hs0, ?_⟩
    intro irqs hirqs
    have hN : 1 ≤ ep0PacketCount data.length := by unfold ep0PacketCount; omega
    obtain ⟨hpart, htot⟩ := irqRun_EP0Sent env hrx htx data s irqs 1 s0 (le_refl _) hN hsent hirqs
    refine ⟨?_, htot⟩
    intro t ht
    obtain ⟨hlog, hmore, hdone⟩ := hpart t ht
    rw [Nat.add_comm 1 irqs.length] at hlog hmore hdone
    refine ⟨hlog, ?_⟩
    unfold ep0PacketCount at hmore hdone ⊢
    constructor
    · intro hz
      by_contra hcon
      have := (hmore (by omega)).1
      omega
    · intro hle
      exact hdone (by omega)
  · rw [ep0Chunk_flatten]
    apply List.take_of_length_le
    unfold ep0PacketCount
    omega

/-- Witness of C1: a payload of 65 bytes on the RP2350 constants, with an RX
callback and a TX-complete callback that sends on endpoint 1. -/
theorem ep0_chunked_transfer_witness :
    (∃ s0, sendUSBPacket 0 (List.range 65) 0 zeroState = some s0 ∧
      ∀ irqs : List (Nat × Nat),
        (∀ q ∈ irqs, q.1 &&& rp2350Callbacks.USB_INTS_BUFF_STATUS > 0 ∧
          q.1 &&& rp2350Callbacks.USB_INTS_SETUP_REQ = 0) →
        (∀ t, irqRun rp2350Callbacks irqs s0 = some t →
          ep0Packets t = ep0Packets zeroState ++
            (List.range (min (irqs.length + 1) (ep0PacketCount (List.range 65).length))).map
              (fun j => (ep0Chunk (List.range 65) (j + 1),
                (ep0Chunk (List.range 65) (j + 1)).length)) ∧
          (t.sendOnEP0DATADONE.offset = 0 ↔
            ep0PacketCount (List.range 65).length ≤ irqs.length + 1)) ∧
        ((∀ q ∈ irqs, q.2 &&& 0xAAAAAAAA = 0) → 16 ≤ rp2350Callbacks.usbTxHandler.length →
          ∃ t, irqRun rp2350Callbacks irqs s0 = some t)) ∧
    ((List.range (ep0PacketCount (List.range 65).length)).map
      (fun j => ep0Chunk (List.range 65) (j + 1))).flatten = List.range 65 :=
  ep0_chunked_transfer rp2350Callbacks (List.range 65) zeroState
    (by
      intro i f h buf t
      have hf := eq_of_get?_replicate _ _ _ _ h
      injection hf with hf
      subst hf
      exact ⟨rfl, rfl⟩)
    (by
      intro i f h t
      have hf := eq_of_get?_replicate _ _ _ _ h
      injection hf with hf
      subst hf
      unfold sendOneByte
      rw [sendViaEPIn_eq 1 [7] 1 t 1 rfl (by decide) (by decide)]
      exact ⟨rfl, by simp [ep0Packets, List.filter_append]⟩)

/-- C2, as stated, fails: on endpoint 1 a payload of 100 bytes with no limit is
sent with the byte count 100 in the buffer-control word, not
`min(len(data), max_count, 64) = 64`. -/
theorem send_count_counterexample :
    ∃ t, sendUSBPacket 1 (List.replicate 100 7) 0 zeroState = some t ∧
      sendCountSpec (List.replicate 100 7).length 0 = 64 ∧
      t.EPxBufferControlIn 1 &&& usbBuf0CtrlLenMask = 100 :=
  ⟨_, rfl, by decide, by decide⟩

/-- C2, amended. For every endpoint index 0..15, every `data` and every
`max_count`, one call of `sendUSBPacket` copies exactly the first
`n = min(len(data), max_count, 64)` bytes of `data` into the IN buffer of the
endpoint, and `n` is at most 64. On endpoint 0, and on the endpoints 1..15 when
the byte count the caller asks for, `min(len(data), max_count)`, is at most 64,
the byte-count field of the IN buffer-control word written is `n`, with the
available and full flags set and the stall flag clear. -/
theorem send_copies_count (ep : Nat) (data : List Nat) (maxsize : Nat) (s : State)
    (hep : ep < 16) :
    ∃ t, sendUSBPacket ep data maxsize s = some t ∧
      (∀ j, j < sendCountSpec data.length maxsize → t.EPxBuffer0 ep j = data.getD j 0) ∧
      (∀ j, sendCountSpec data.length maxsize ≤ j → t.EPxBuffer0 ep j = s.EPxBuffer0 ep j) ∧
      sendCountSpec data.length maxsize ≤ 64 ∧
      (ep = 0 ∨ callerCount data.length maxsize ≤ 64 →
        t.EPxBufferControlIn ep &&& usbBuf0CtrlLenMask = sendCountSpec data.length maxsize ∧
        t.EPxBufferControlIn ep &&& usbBuf0CtrlAvail = usbBuf0CtrlAvail ∧
        t.EPxBufferControlIn ep &&& usbBuf0CtrlFull = usbBuf0CtrlFull ∧
        t.EPxBufferControlIn ep &&& usbBuf0CtrlStall = 0) := by
  have hcount : (if 0 < maxsize ∧ maxsize < data.length then maxsize else data.length)
      = callerCount data.length maxsize := by
    unfold callerCount
    split_ifs <;> omega
  have hspec : sendCountSpec data.length maxsize = min (callerCount data.length maxsize) 64 := by
    unfold sendCountSpec callerCount
    split_ifs <;> rfl
  have hle : callerCount data.length maxsize ≤ data.length := by
    unfold callerCount
    split_ifs <;> omega
  have h64 : sendCountSpec data.length maxsize ≤ 64 := by rw [hspec]; omega
  by_cases h0 : ep = 0
  · subst h0
    by_cases hbig : callerCount data.length maxsize > EndpointPacketSize
    · obtain ⟨t, ht, b1, b2, c1, c2, c3, c4, _⟩ := sendViaEPIn_packet 0 data EndpointPacketSize
        { s with
          sendOnEP0DATADONE :=
            { s.sendOnEP0DATADONE with offset := EndpointPacketSize, data := data }
          epXdata0 := Function.update s.epXdata0 0 true } hep
        (by unfold EndpointPacketSize at hbig ⊢; omega) (le_refl _)
      have hn : sendCountSpec data.length maxsize = EndpointPacketSize := by
        rw [hspec]; unfold EndpointPacketSize at hbig ⊢; omega
      rw [hn]
      refine ⟨t, ?_, b1, b2, le_refl _, fun _ => ⟨c1, c2, c3, c4⟩⟩
      simp only [sendUSBPacket, hcount, if_true, if_pos hbig]
      exact ht
    · obtain ⟨t, ht, b1, b2, c1, c2, c3, c4, _⟩ := sendViaEPIn_packet 0 data
        (callerCount data.length maxsize)
        { s with
          sendOnEP0DATADONE := { s.sendOnEP0DATADONE with offset := 0 }
          epXdata0 := Function.update s.epXdata0 0 true } hep hle
        (by unfold EndpointPacketSize at hbig; omega)
      have hn : sendCountSpec data.length maxsize = callerCount data.length maxsize := by
        rw [hspec]; unfold EndpointPacketSize at hbig; omega
      rw [hn]
      refine ⟨t, ?_, b1, b2, by unfold EndpointPacketSize at hbig; omega,
        fun _ => ⟨c1, c2, c3, c4⟩⟩
      simp only [sendUSBPacket, hcount, if_true, if_neg hbig]
      exact ht
  · obtain ⟨t, ht, b1, b2⟩ := sendViaEPIn_copy ep data (callerCount data.length maxsize) s hep hle
    rw [← hspec] at b1 b2
    refine ⟨t, ?_, b1, b2, h64, ?_⟩
    · simp only [sendUSBPacket, hcount, if_neg h0]
      exact ht
    · intro h
      have hc64 : callerCount data.length maxsize ≤ 64 := by
        rcases h with h | h
        · exact absurd h h0
        · exact h
      obtain ⟨u, hu, _, _, c1, c2, c3, c4, _⟩ := sendViaEPIn_packet ep data
        (callerCount data.length maxsize) s hep hle hc64
      rw [ht] at hu
      injection hu with hu
      subst hu
      have hn : sendCountSpec data.length maxsize = callerCount data.length maxsize := by
        rw [hspec]; omega
      rw [hn]
      exact ⟨c1, c2, c3, c4⟩

/-- Witness of C2: three bytes limited to two on endpoint 1. -/
theorem send_copies_count_witness :
    ∃ t, sendUSBPacket 1 [1, 2, 3] 2 zeroState = some t ∧
      (∀ j, j < 2 → t.EPxBuffer0 1 j = [1, 2, 3].getD j 0) ∧
      t.EPxBufferControlIn 1 &&& usbBuf0CtrlLenMask = 2 ∧
      t.EPxBufferControlIn 1 &&& usbBuf0CtrlAvail = usbBuf0CtrlAvail ∧
      t.EPxBufferControlIn 1 &&& usbBuf0CtrlFull = usbBuf0CtrlFull ∧
      t.EPxBufferControlIn 1 &&& usbBuf0CtrlStall = 0 := by
  obtain ⟨t, ht, b1, _, _, hc⟩ := send_copies_count 1 [1, 2, 3] 2 zeroState (by decide)
  obtain ⟨c1, c2, c3, c4⟩ := hc (Or.inr (by decide))
  exact ⟨t, ht, b1, c1, c2, c3, c4⟩

set_option maxRecDepth 100000 in
/-- C3 fails on the code: `sendUSBPacket(0, data, 100)` with 130 bytes of data
and the two buffer-status interrupts that follow write packets of 64, 64 and 2
bytes, 130 bytes in all, although the caller's byte count
`min(len(data), max_count)` is 100. -/
theorem ep0_maxsize_overrun :
    ∃ s0 t, sendUSBPacket 0 (List.range 130) 100 zeroState = some s0 ∧
      s0.sendOnEP0DATADONE.offset = 64 ∧
      irqRun rp2350 [(0x10, 1), (0x10, 1)] s0 = some t ∧
      (ep0Packets t).map (fun p => p.2) = [64, 64, 2] ∧
      ((ep0Packets t).map (fun p => p.1)).flatten = List.range 130 ∧
      t.sendOnEP0DATADONE.offset = 0 ∧
      callerCount (List.range 130).length 100 = 100 :=
  ⟨_, _, rfl, rfl, rfl, by decide, by decide, rfl, by decide⟩

/-- C4, as stated, fails: one send on endpoint 1 with the tracked bit false
writes a buffer-control word with the DATA1 flag clear, where the claim gives
`false XOR (1 mod 2) = true`; and the tracked bit afterwards is true, not the
flag written. -/
theorem data_sequence_counterexample :
    ∃ t, sendRun 1 [([1], 0)] zeroState = some t ∧
      zeroState.epXdata0 1 = false ∧
      data1Flag (t.EPxBufferControlIn 1) = false ∧
      xor (zeroState.epXdata0 1) (decide ([([1], 0)].length % 2 = 1)) = true ∧
      t.epXdata0 1 = true :=
  ⟨_, rfl, rfl, by decide, by decide, by decide⟩

/-- C4, amended. For every IN endpoint index 0..15, every initial value of the
tracked bit `epXdata0[ep]` and every run of `N >= 1` single-packet sends with
`sendUSBPacket` on that endpoint: on the endpoints 1..15 the DATA1 flag of the
`N`-th buffer-control word written is the negation of
`initial_bit XOR (N mod 2)`; on endpoint 0 it is set in every packet; and the
tracked bit after the send is the negation of the flag written (a true
`epXdata0` stands for DATA0). -/
theorem data_sequence_after_sends (ep : Nat) (s : State) (sends : List (List Nat × Nat))
    (hep : ep < 16) (hN : sends ≠ [])
    (hsingle : ∀ p ∈ sends, callerCount p.1.length p.2 ≤ 64) :
    ∃ t, sendRun ep sends s = some t ∧
      data1Flag (t.EPxBufferControlIn ep) =
        (if ep = 0 then true else !(xor (s.epXdata0 ep) (decide (sends.length % 2 = 1)))) ∧
      t.epXdata0 ep = (!data1Flag (t.EPxBufferControlIn ep)) := by
  obtain ⟨t, ht, _, h⟩ := sendRun_bits ep hep s sends hsingle
  exact ⟨t, ht, h hN⟩

/-- Witness of C4: three sends on endpoint 2. -/
theorem data_sequence_after_sends_witness :
    ∃ t, sendRun 2 [([1, 2], 0), ([], 0), ([3], 8)] zeroState = some t ∧
      data1Flag (t.EPxBufferControlIn 2) =
        (if (2 : Nat) = 0 then true
          else !(xor (zeroState.epXdata0 2)
            (decide ([([1, 2], 0), ([], 0), ([3], 8)].length % 2 = 1)))) ∧
      t.epXdata0 2 = (!data1Flag (t.EPxBufferControlIn 2)) :=
  data_sequence_after_sends 2 zeroState [([1, 2], 0), ([], 0), ([3], 8)] (by decide)
    (by decide) (by decide)

/-- C5. From packet memory just cleared, for every endpoint index 0..15 and
each of the five supported configurations, after `initEndpoint` the available
flag of the OUT buffer-control word of the endpoint is set exactly for bulk
OUT, interrupt OUT and control; the IN buffer-control word does not have it
set; for bulk OUT and interrupt OUT the length field is the buffer length 64. -/
theorem initEndpoint_available_iff_out (env : Env) (s : State) (ep config : Nat)
    (hd : env.configsDistinct) (hep : ep < 16) (hc : config ∈ env.configs) :
    ∃ t, initEndpoint env ep config (usbDPSRAM.clear s) = some t ∧
      (t.EPxBufferControlOut ep &&& usbBuf0CtrlAvail ≠ 0 ↔
        (config = env.ENDPOINT_TYPE_BULK ||| env.EndpointOut ∨
         config = env.ENDPOINT_TYPE_INTERRUPT ||| env.EndpointOut ∨
         config = env.ENDPOINT_TYPE_CONTROL)) ∧
      t.EPxBufferControlIn ep &&& usbBuf0CtrlAvail = 0 ∧
      (config = env.ENDPOINT_TYPE_BULK ||| env.EndpointOut ∨
        config = env.ENDPOINT_TYPE_INTERRUPT ||| env.EndpointOut →
        t.EPxBufferControlOut ep &&& usbBuf0CtrlLenMask = usbBufferLen) := by
  obtain ⟨⟨a1, a2, a3, a4⟩, ⟨b1, b2, b3⟩, ⟨c1, c2⟩, d1⟩ := configs_ne env hd
  simp only [Env.configs, List.mem_cons, List.mem_singleton, List.not_mem_nil, or_false] at hc
  rcases hc with h | h | h | h | h
  · refine ⟨_, by rw [h]; exact initEndpoint_interruptIn env ep _ hep, ?_, ?_, ?_⟩
    · simp only [setControlIn, usbDPSRAM.clear, if_pos hep, Nat.zero_and, ne_eq,
        not_true_eq_false, false_iff, not_or]
      exact ⟨h ▸ a1, h ▸ a2, h ▸ a4⟩
    · simp only [setControlIn, usbDPSRAM.clear, if_pos hep, Nat.zero_and]
    · intro h2
      rcases h2 with h2 | h2
      · exact absurd (h ▸ h2) a1
      · exact absurd (h ▸ h2) a2
  · refine ⟨_, by rw [h]; exact initEndpoint_bulkOut env hd ep _ hep, ?_, ?_, ?_⟩
    · simp only [setBitsBufCtrlOut, setBufCtrlOut, Function.update_same]
      exact ⟨fun _ => Or.inl h, fun _ => by decide⟩
    · simp only [setBitsBufCtrlOut, setBufCtrlOut, setControlOut, usbDPSRAM.clear, if_pos hep,
        Nat.zero_and]
    · intro _
      simp only [setBitsBufCtrlOut, setBufCtrlOut, Function.update_same]
      decide
  · refine ⟨_, by rw [h]; exact initEndpoint_interruptOut env hd ep _ hep, ?_, ?_, ?_⟩
    · simp only [setBitsBufCtrlOut, setBufCtrlOut, Function.update_same]
      exact ⟨fun _ => Or.inr (Or.inl h), fun _ => by decide⟩
    · simp only [setBitsBufCtrlOut, setBufCtrlOut, setControlOut, usbDPSRAM.clear, if_pos hep,
        Nat.zero_and]
    · intro _
      simp only [setBitsBufCtrlOut, setBufCtrlOut, Function.update_same]
      decide
  · refine ⟨_, by rw [h]; exact initEndpoint_bulkIn env hd ep _ hep, ?_, ?_, ?_⟩
    · simp only [setControlIn, usbDPSRAM.clear, if_pos hep, Nat.zero_and, ne_eq,
        not_true_eq_false, false_iff, not_or]
      exact ⟨h ▸ b2.symm, h ▸ c1.symm, h ▸ d1⟩
    · simp only [setControlIn, usbDPSRAM.clear, if_pos hep, Nat.zero_and]
    · intro h2
      rcases h2 with h2 | h2
      · exact absurd (h ▸ h2) b2.symm
      · exact absurd (h ▸ h2) c1.symm
  · refine ⟨_, by rw [h]; exact initEndpoint_control env hd ep _ hep, ?_, ?_, ?_⟩
    · simp only [setBitsBufCtrlOut, setBufCtrlOut, Function.update_same]
      exact ⟨fun _ => Or.inr (Or.inr h), fun _ => by decide⟩
    · simp only [setBitsBufCtrlOut, setBufCtrlOut, usbDPSRAM.clear, if_pos hep, Nat.zero_and]
    · intro h2
      rcases h2 with h2 | h2
      · exact absurd (h ▸ h2) b3.symm
      · exact absurd (h ▸ h2) c2.symm

/-- Witness of C5: endpoint 3 configured as bulk OUT on the RP2350 constants. -/
theorem initEndpoint_available_iff_out_witness :
    ∃ t, initEndpoint rp2350 3 0x02 (usbDPSRAM.clear zeroState) = some t ∧
      (t.EPxBufferControlOut 3 &&& usbBuf0CtrlAvail ≠ 0 ↔
        ((0x02 : Nat) = rp2350.ENDPOINT_TYPE_BULK ||| rp2350.EndpointOut ∨
         (0x02 : Nat) = rp2350.ENDPOINT_TYPE_INTERRUPT ||| rp2350.EndpointOut ∨
         (0x02 : Nat) = rp2350.ENDPOINT_TYPE_CONTROL)) ∧
      t.EPxBufferControlIn 3 &&& usbBuf0CtrlAvail = 0 ∧
      ((0x02 : Nat) = rp2350.ENDPOINT_TYPE_BULK ||| rp2350.EndpointOut ∨
        (0x02 : Nat) = rp2350.ENDPOINT_TYPE_INTERRUPT ||| rp2350.EndpointOut →
        t.EPxBufferControlOut 3 &&& usbBuf0CtrlLenMask = usbBufferLen) :=
  initEndpoint_available_iff_out rp2350 zeroState 3 0x02 (by decide) (by decide) (by decide)

/-- C6, as stated, fails: after `initEndpoint(0, control)` on zeroed packet
memory, and after a bus-reset interrupt, the control words of endpoint 0 have
neither the enable flag nor the interrupt-per-buffer flag. -/
theorem control_word_counterexample :
    ∃ t u, initEndpoint rp2350 0 rp2350.ENDPOINT_TYPE_CONTROL zeroState = some t ∧
      t.EPxControlIn 0 &&& usbEpControlEnable = 0 ∧
      t.EPxControlOut 0 &&& usbEpControlEnable = 0 ∧
      t.EPxControlOut 0 &&& usbEpControlInterruptPerBuff = 0 ∧
      handleUSBIRQ rp2350 rp2350.USB_INTS_BUS_RESET 0 zeroState = some u ∧
      u.EPxControlIn 0 &&& usbEpControlEnable = 0 ∧
      u.EPxControlOut 0 &&& usbEpControlEnable = 0 :=
  ⟨_, _, rfl, by decide, by decide, by decide, rfl, by decide, by decide⟩

/-- C6, amended. For every endpoint index 0..15 and every prior state,
`initEndpoint(ep, control type)` writes no control word: the control words of
packet memory are as before (the slot of endpoint 0 holds the SETUP packet),
and the OUT buffer-control word of the endpoint is DATA1 | available. In
particular an interrupt with only the bus-reset condition leaves the control
words as they are and the OUT buffer-control word of endpoint 0 DATA1 |
available. -/
theorem initEndpoint_control_words (env : Env) (s : State) (ep status s2 : Nat)
    (hd : env.configsDistinct) (hep : ep < 16) :
    (∃ t, initEndpoint env ep env.ENDPOINT_TYPE_CONTROL s = some t ∧
      t.EPxControlIn = s.EPxControlIn ∧ t.EPxControlOut = s.EPxControlOut ∧
      t.EPxBufferControlOut ep = usbBuf0CtrlData1Pid ||| usbBuf0CtrlAvail) ∧
    (status &&& env.USB_INTS_BUS_RESET > 0 → status &&& env.USB_INTS_SETUP_REQ = 0 →
      status &&& env.USB_INTS_BUFF_STATUS = 0 →
      ∃ t, handleUSBIRQ env status s2 s = some t ∧
        t.EPxControlIn = s.EPxControlIn ∧ t.EPxControlOut = s.EPxControlOut ∧
        t.EPxBufferControlOut 0 = usbBuf0CtrlData1Pid ||| usbBuf0CtrlAvail) := by
  constructor
  · refine ⟨_, initEndpoint_control env hd ep s hep, rfl, rfl, ?_⟩
    simp only [setBitsBufCtrlOut, setBufCtrlOut, Function.update_same]
  · intro hr hs hb
    rw [handleUSBIRQ_reset_only env status s2 s hr hs hb]
    refine ⟨_, irqBusReset_eq env hd s, rfl, rfl, ?_⟩
    simp only [setBitsBufCtrlOut, setBufCtrlOut, Function.update_same]

/-- Witness of C6: endpoint 0 and a bus-reset interrupt on the RP2350
constants. -/
theorem initEndpoint_control_words_witness :
    ∃ t u, initEndpoint rp2350 0 rp2350.ENDPOINT_TYPE_CONTROL zeroState = some t ∧
      t.EPxControlIn = zeroState.EPxControlIn ∧
      t.EPxBufferControlOut 0 = usbBuf0CtrlData1Pid ||| usbBuf0CtrlAvail ∧
      handleUSBIRQ rp2350 0x1000 0 zeroState = some u ∧
      u.EPxControlOut = zeroState.EPxControlOut ∧
      u.EPxBufferControlOut 0 = usbBuf0CtrlData1Pid ||| usbBuf0CtrlAvail := by
  obtain ⟨⟨t, ht, h1, _, h3⟩, h⟩ :=
    initEndpoint_control_words rp2350 zeroState 0 0x1000 0 (by decide) (by decide)
  obtain ⟨u, hu, _, h5, h6⟩ := h (by decide) (by decide) (by decide)
  exact ⟨t, u, ht, h1, h3, hu, h5, h6⟩

/-- C7. For every prior state and every interrupt status with the bus-reset bit
set, whatever the other bits and the callbacks: when `handleUSBIRQ` returns,
`ADDR_ENDP` is 0 and the OUT buffer-control word of endpoint 0 is exactly
DATA1 | available. It does return when the buffer-status bit is clear. -/
theorem bus_reset_primes_ep0 (env : Env) (status s2 : Nat) (s : State)
    (hd : env.configsDistinct) (hr : status &&& env.USB_INTS_BUS_RESET > 0) :
    (∀ t, handleUSBIRQ env status s2 s = some t →
      t.ADDR_ENDP = 0 ∧
      t.EPxBufferControlOut 0 = usbBuf0CtrlData1Pid ||| usbBuf0CtrlAvail) ∧
    (status &&& env.USB_INTS_BUFF_STATUS = 0 → ∃ t, handleUSBIRQ env status s2 s = some t) := by
  constructor
  · intro t ht
    obtain ⟨u, hu⟩ := handleUSBIRQ_reset_last env status s2 s t hr ht
    rw [irqBusReset_eq env hd u] at hu
    injection hu with hu
    subst hu
    refine ⟨rfl, ?_⟩
    simp only [setBitsBufCtrlOut, setBufCtrlOut, Function.update_same]
  · intro hb
    simp only [handleUSBIRQ, hb, Nat.lt_irrefl, if_false, Option.some_bind, if_pos hr]
    split_ifs
    · obtain ⟨u, hu⟩ := irqSetupReq_returns env s
      rw [hu]
      exact irqBusReset_returns env u
    · exact irqBusReset_returns env s

/-- Witness of C7: an interrupt with the SETUP, buffer-status and bus-reset bits
set, with callbacks registered, in a state with the address 5. -/
theorem bus_reset_primes_ep0_witness :
    ∃ t, handleUSBIRQ rp2350Callbacks 0x11010 0x5 { zeroState with ADDR_ENDP := 5 } = some t ∧
      t.ADDR_ENDP = 0 ∧
      t.EPxBufferControlOut 0 = usbBuf0CtrlData1Pid ||| usbBuf0CtrlAvail :=
  ⟨_, rfl, (bus_reset_primes_ep0 rp2350Callbacks 0x11010 0x5 { zeroState with ADDR_ENDP := 5 }
    (by decide) (by decide)).1 _ rfl⟩

/-- C8, as stated, fails: after one send on endpoint 1 the tracked bit of the
endpoint is true, and it is still true after `initEndpoint(1, bulk IN)` and
after a bus-reset interrupt. -/
theorem tracked_bit_counterexample :
    ∃ s1 t u, sendUSBPacket 1 [1] 0 zeroState = some s1 ∧ s1.epXdata0 1 = true ∧
      initEndpoint rp2350 1 (rp2350.ENDPOINT_TYPE_BULK ||| rp2350.EndpointIn) s1 = some t ∧
      t.epXdata0 1 = true ∧
      handleUSBIRQ rp2350 rp2350.USB_INTS_BUS_RESET 0 s1 = some u ∧
      u.epXdata0 1 = true :=
  ⟨_, _, _, rfl, by decide, rfl, by decide, rfl, by decide⟩

/-- C8, amended. For every prior state, `initEndpoint(ep, config)` on an
endpoint index 0..15 and an interrupt with only the bus-reset condition leave
the tracked bit `epXdata0` of every endpoint as it was: the bit is false after
them exactly when it was false before. -/
theorem tracked_bits_kept (env : Env) (s : State) (ep config status s2 : Nat) (hep : ep < 16) :
    (∃ t, initEndpoint env ep config s = some t ∧ t.epXdata0 = s.epXdata0) ∧
    (status &&& env.USB_INTS_BUS_RESET > 0 → status &&& env.USB_INTS_SETUP_REQ = 0 →
      status &&& env.USB_INTS_BUFF_STATUS = 0 →
      ∃ t, handleUSBIRQ env status s2 s = some t ∧ t.epXdata0 = s.epXdata0) := by
  constructor
  · obtain ⟨t, ht⟩ := initEndpoint_returns env ep config s hep
    exact ⟨t, ht, initEndpoint_epXdata0 env ep config s t ht⟩
  · intro hr hs hb
    rw [handleUSBIRQ_reset_only env status s2 s hr hs hb]
    obtain ⟨t, ht⟩ := irqBusReset_returns env s
    refine ⟨t, ht, ?_⟩
    simp only [irqBusReset] at ht
    rw [initEndpoint_epXdata0 env 0 _ _ t ht]

/-- Witness of C8: endpoint 1 configured as interrupt OUT, and a bus-reset
interrupt, on the RP2350 constants. -/
theorem tracked_bits_kept_witness :
    ∃ t u, initEndpoint rp2350 1 0x03 zeroState = some t ∧ t.epXdata0 = zeroState.epXdata0 ∧
      handleUSBIRQ rp2350 0x1000 0 zeroState = some u ∧ u.epXdata0 = zeroState.epXdata0 := by
  obtain ⟨⟨t, ht, h1⟩, h⟩ := tracked_bits_kept rp2350 zeroState 1 0x03 0x1000 0 (by decide)
  obtain ⟨u, hu, h2⟩ := h (by decide) (by decide) (by decide)
  exact ⟨t, u, ht, h1, hu, h2⟩

/-- C9. For every state and every interrupt with only the SETUP condition: if
no handler claims the request (and the handler asked, if any, mutates
nothing), `handleUSBIRQ` stalls EP0 IN (the stall-arm bit of EP0 IN is written
and the IN buffer-control word of endpoint 0 ends with the stall flag set) and
leaves the device address, every control word, every buffer-control word other
than that of EP0 IN, the tracked bits and the pending context unchanged.
Conversely, when the handler the request is routed to (`handleStandardSetup`
for a standard request, the registered handler of its `WIndex` otherwise)
returns true and leaves the state `u`, `handleUSBIRQ` returns exactly `u`: no
stall is written. -/
theorem unclaimed_setup_stalls (env : Env) (status s2 : Nat) (s : State)
    (hs : status &&& env.USB_INTS_SETUP_REQ > 0) (hb : status &&& env.USB_INTS_BUFF_STATUS = 0)
    (hr : status &&& env.USB_INTS_BUS_RESET = 0) :
    (Unclaimed env (setupPacket env s) (setupState env s) →
      ∃ t, handleUSBIRQ env status s2 s = some t ∧
        t.EP_STALL_ARM = env.USB_EP_STALL_ARM_EP0_IN ∧
        t.EPxBufferControlIn 0 &&& usbBuf0CtrlStall = usbBuf0CtrlStall ∧
        t.ADDR_ENDP = s.ADDR_ENDP ∧
        t.EPxControlIn = s.EPxControlIn ∧ t.EPxControlOut = s.EPxControlOut ∧
        t.EPxBufferControlOut = s.EPxBufferControlOut ∧
        (∀ i, i ≠ 0 → t.EPxBufferControlIn i = s.EPxBufferControlIn i) ∧
        t.epXdata0 = s.epXdata0 ∧
        t.sendOnEP0DATADONE = s.sendOnEP0DATADONE) ∧
    (∀ u, Claimed env (setupPacket env s) (setupState env s) u →
      handleUSBIRQ env status s2 s = some u) := by
  rw [handleUSBIRQ_setup_only env status s2 s hs hb hr, irqSetupReq_eq]
  constructor
  · intro h
    rw [routeSetup_unclaimed env _ _ h]
    refine ⟨setBufCtrlIn 0 (usbBuf0CtrlFull ||| usbBuf0CtrlStall)
      (setBufCtrlIn 0 usbBuf0CtrlFull
        { setupState env s with EP_STALL_ARM := env.USB_EP_STALL_ARM_EP0_IN }),
      by rw [if_pos rfl]; exact sendStallViaEPIn_ep0 env _, rfl, ?_, rfl, rfl, rfl, rfl,
      ?_, rfl, rfl⟩
    · simp only [setBufCtrlIn, Function.update_same]
      decide
    · intro i hi
      simp only [setBufCtrlIn, Function.update_noteq hi]
      rfl
  · intro u hu
    rw [routeSetup_claimed env _ _ u hu]
    rfl

/-- Witness of C9, on the RP2350 constants with setup handlers registered: a
class request (type bits 0x20) for interface 2, whose handler declines it, is
stalled with the address left at 9; the same request for interface 1, whose
handler claims it, returns the state the handler left, with no stall-arm bit
and no stall flag written. -/
theorem unclaimed_setup_stalls_witness :
    (∃ t, handleUSBIRQ rp2350Handlers 0x10000 0
        { zeroState with
          EPxControlIn := fun _ => 0x21, EPxControlOut := fun _ => 2, ADDR_ENDP := 9 }
          = some t ∧
      t.EP_STALL_ARM = rp2350Handlers.USB_EP_STALL_ARM_EP0_IN ∧
      t.EPxBufferControlIn 0 &&& usbBuf0CtrlStall = usbBuf0CtrlStall ∧
      t.ADDR_ENDP = 9) ∧
    (handleUSBIRQ rp2350Handlers 0x10000 0
        { zeroState with
          EPxControlIn := fun _ => 0x21, EPxControlOut := fun _ => 1, ADDR_ENDP := 9 }
      = some (sendOneByte (setupState rp2350Handlers
        { zeroState with
          EPxControlIn := fun _ => 0x21, EPxControlOut := fun _ => 1, ADDR_ENDP := 9 })) ∧
      (sendOneByte (setupState rp2350Handlers
        { zeroState with
          EPxControlIn := fun _ => 0x21, EPxControlOut := fun _ => 1,
          ADDR_ENDP := 9 })).EP_STALL_ARM = 0 ∧
      (sendOneByte (setupState rp2350Handlers
        { zeroState with
          EPxControlIn := fun _ => 0x21, EPxControlOut := fun _ => 1,
          ADDR_ENDP := 9 })).EPxBufferControlIn 0 &&& usbBuf0CtrlStall = 0) := by
  constructor
  · obtain ⟨t, ht, h1, h2, h3, _⟩ :=
      (unclaimed_setup_stalls rp2350Handlers 0x10000 0
        { zeroState with
          EPxControlIn := fun _ => 0x21, EPxControlOut := fun _ => 2, ADDR_ENDP := 9 }
        (by decide) (by decide) (by decide)).1
        (Or.inr ⟨by decide, Or.inr (Or.inr ⟨declineSetup, rfl, rfl⟩)⟩)
    exact ⟨t, ht, h1, h2, h3⟩
  · refine ⟨?_, by decide, by decide⟩
    exact (unclaimed_setup_stalls rp2350Handlers 0x10000 0
        { zeroState with
          EPxControlIn := fun _ => 0x21, EPxControlOut := fun _ => 1, ADDR_ENDP := 9 }
        (by decide) (by decide) (by decide)).2 _
        (Or.inr ⟨by decide, by decide, acceptSetup, rfl, rfl⟩)

/-- C10. For every Setup Packet and all values read from the status register
and the timer in `handleUSBSetAddress` (`tm 0` is the timer read before the
loop, `tm (i + 1)` the timer read in iteration `i`, and the elapsed time is
their difference in 64-bit arithmetic): if in the iterations before `n` the
ACK-received flag is clear and less than 570 microseconds have elapsed, then
(timeout) if in iteration `n` the flag is still clear and 570 microseconds or
more have elapsed, the operation returns false and the device address is as
before; (acknowledged) if in iteration `n` the flag is set, the operation
returns true and the device address is `WValueL` masked with the address mask
of `ADDR_ENDP`. -/
theorem set_address_handshake (env : Env) (sie tm : Nat → Nat) (setup : Setup) (s : State)
    (n fuel : Nat) (hfuel : n < fuel)
    (hwait : ∀ i, i < n → sie i &&& env.USB_SIE_STATUS_ACK_REC = 0 ∧
      (tm (i + 1) + 2 ^ 64 - tm 0 % 2 ^ 64) % 2 ^ 64 < 570) :
    (sie n &&& env.USB_SIE_STATUS_ACK_REC = 0 →
      570 ≤ (tm (n + 1) + 2 ^ 64 - tm 0 % 2 ^ 64) % 2 ^ 64 →
      ∃ t, handleUSBSetAddress env sie tm fuel setup s = some (false, t) ∧
        t.ADDR_ENDP = s.ADDR_ENDP) ∧
    (sie n &&& env.USB_SIE_STATUS_ACK_REC ≠ 0 →
      ∃ t, handleUSBSetAddress env sie tm fuel setup s = some (true, t) ∧
        t.ADDR_ENDP = setup.WValueL &&& env.USB_ADDR_ENDP_ADDRESS_Msk) := by
  obtain ⟨u, hu, haddr⟩ := sendUSBPacket_zlp { s with SIE_STATUS := env.USB_SIE_STATUS_ACK_REC }
  have hskip : ackWait env sie tm fuel 0 = ackWait env sie tm (fuel - n - 1 + 1) n := by
    have e : fuel = (fuel - n - 1 + 1) + n := by omega
    have := ackWait_skip env sie tm n 0 (fuel - n - 1 + 1)
      (fun i _ hi => hwait i (by omega))
    rw [← e, Nat.zero_add] at this
    exact this
  constructor
  · intro hclear hlate
    have hlate2 : elapsed tm n ≥ 570 := hlate
    refine ⟨u, ?_, haddr⟩
    simp only [handleUSBSetAddress, hu, Option.some_bind, hskip, ackWait, if_pos hclear,
      if_pos hlate2]
    rfl
  · intro hset
    refine ⟨{ u with ADDR_ENDP := setup.WValueL &&& env.USB_ADDR_ENDP_ADDRESS_Msk }, ?_, rfl⟩
    simp only [handleUSBSetAddress, hu, Option.some_bind, hskip, ackWait, if_neg hset]
    rfl

/-- Witness of C10, with a timer that advances 100 microseconds between two
reads. Timeout: the flag is never seen, the sixth timer read of the loop is
600 microseconds after the start, the operation returns false and the address
stays 9. Acknowledged: the flag is seen in the fourth read, 300 microseconds
after the start, and the address 0xAA of the Setup Packet is masked to 0x2A. -/
theorem set_address_handshake_witness :
    (∃ t, handleUSBSetAddress rp2350 neverAck timerBy100 10
        { BmRequestType := 0, BRequest := 5, WValueL := 0xAA, WValueH := 0, WIndex := 0,
          WLength := 0 } { zeroState with ADDR_ENDP := 9 } = some (false, t) ∧
      t.ADDR_ENDP = 9) ∧
    (∃ t, handleUSBSetAddress rp2350 ackAfterThree timerBy100 10
        { BmRequestType := 0, BRequest := 5, WValueL := 0xAA, WValueH := 0, WIndex := 0,
          WLength := 0 } { zeroState with ADDR_ENDP := 9 } = some (true, t) ∧
      t.ADDR_ENDP = 0x2A) :=
  ⟨(set_address_handshake rp2350 neverAck timerBy100
      { BmRequestType := 0, BRequest := 5, WValueL := 0xAA, WValueH := 0, WIndex := 0,
        WLength := 0 } { zeroState with ADDR_ENDP := 9 } 5 10 (by decide) (by decide)).1
      (by decide) (by decide),
   (set_address_handshake rp2350 ackAfterThree timerBy100
      { BmRequestType := 0, BRequest := 5, WValueL := 0xAA, WValueH := 0, WIndex := 0,
        WLength := 0 } { zeroState with ADDR_ENDP := 9 } 3 10 (by decide) (by decide)).2
      (by decide)⟩

/-- C11. For every endpoint index 1..15 configured as bulk OUT with
`initEndpoint` and every packet of fewer than 64 bytes that the hardware stores
in the buffer of the endpoint with its length in the OUT buffer-control word: a
buffer-status interrupt for this OUT buffer hands the RX callback registered
for the endpoint exactly these bytes, the first `n` bytes of the buffer, and
afterwards the OUT buffer-control word has the length field 64 and the
available flag set. The callback is taken not to write the OUT buffer-control
word of the endpoint, and the pending context of endpoint 0 to be well
formed. -/
theorem bulk_out_round_trip (env : Env) (s0 : State) (ep : Nat) (bytes : List Nat)
    (w status : Nat) (o : Option (List Nat → State → State))
    (hd : env.configsDistinct) (h1 : 1 ≤ ep) (h16 : ep < 16) (hn : bytes.length < 64)
    (hw : w &&& usbBuf0CtrlLenMask = bytes.length)
    (ho : env.usbRxHandler.get? ep = some o)
    (hcb : ∀ buf u, (callRx o buf u).EPxBufferControlOut ep = u.EPxBufferControlOut ep)
    (hp : PendingOK s0)
    (hb : status &&& env.USB_INTS_BUFF_STATUS > 0) (hs : status &&& env.USB_INTS_SETUP_REQ = 0)
    (hr : status &&& env.USB_INTS_BUS_RESET = 0) :
    ∃ s1 u t,
      initEndpoint env ep (env.ENDPOINT_TYPE_BULK ||| env.EndpointOut) s0 = some s1 ∧
      (List.range bytes.length).map ((hwReceive ep bytes w s1).EPxBuffer0 ep) = bytes ∧
      handleEndpointRxComplete ep (callRx o bytes u) = some t ∧
      handleUSBIRQ env status (1 <<< (ep * 2 + 1)) (hwReceive ep bytes w s1) =
        some { t with BUFF_STATUS := 1 <<< (ep * 2 + 1) } ∧
      t.EPxBufferControlOut ep &&& usbBuf0CtrlLenMask = usbBufferLen ∧
      t.EPxBufferControlOut ep &&& usbBuf0CtrlAvail = usbBuf0CtrlAvail := by
  have hne : ep ≠ 0 := by omega
  obtain ⟨s1, hinit, hp1⟩ : ∃ s1,
      initEndpoint env ep (env.ENDPOINT_TYPE_BULK ||| env.EndpointOut) s0 = some s1 ∧
      PendingOK (hwReceive ep bytes w s1) :=
    ⟨_, initEndpoint_bulkOut env hd ep s0 h16, hp⟩
  have hbytes : ∀ s1 : State,
      (List.range bytes.length).map ((hwReceive ep bytes w s1).EPxBuffer0 ep) = bytes := by
    intro s1
    simp only [hwReceive, Function.update_same]
    exact range_map_copyBuffer _ bytes (by unfold usbBufferLen; omega)
  obtain ⟨u0, hu0, hout, hbuf⟩ := irqCont_returns (hwReceive ep bytes w s1) hp1
  have hword : u0.EPxBufferControlOut ep = w := by
    rw [hout]
    simp only [hwReceive, Function.update_same]
  have hlen : u0.EPxBufferControlOut ep &&& usbBuf0CtrlLenMask ≤ usbBufferLen := by
    rw [hword, hw]; unfold usbBufferLen; omega
  have hstep := irqOutStep_rx env (1 <<< (ep * 2 + 1)) u0 ep o
    ((outBit_single ep h16 ep h16).2 rfl) h16 hlen ho
  rw [hword, hw, hbuf ep hne, hbytes] at hstep
  obtain ⟨t, ht, hl, ha⟩ := handleEndpointRxComplete_word ep
    (callRx o bytes (setBufCtrlOut ep (usbBufferLen &&& usbBuf0CtrlLenMask) u0)) h16
  refine ⟨s1, _, t, hinit, hbytes s1, ht, ?_, ?_, ha⟩
  · rw [handleUSBIRQ_buff_only env status _ _ hb hs hr,
      irqBuffStatus_single_out env _ u0 ep h16 hu0, hstep, ht]
    rfl
  · rw [hl, hcb]
    simp only [setBufCtrlOut, Function.update_same]
    decide

/-- Witness of C11: three bytes received on endpoint 2, with the RX callback
`storeFirstByte` registered. -/
theorem bulk_out_round_trip_witness :
    ∃ s1 u t,
      initEndpoint rp2350Callbacks 2
        (rp2350Callbacks.ENDPOINT_TYPE_BULK ||| rp2350Callbacks.EndpointOut) zeroState
          = some s1 ∧
      (List.range [9, 8, 7].length).map ((hwReceive 2 [9, 8, 7] 0x8003 s1).EPxBuffer0 2)
        = [9, 8, 7] ∧
      handleEndpointRxComplete 2 (callRx (some storeFirstByte) [9, 8, 7] u) = some t ∧
      handleUSBIRQ rp2350Callbacks 0x10 (1 <<< (2 * 2 + 1)) (hwReceive 2 [9, 8, 7] 0x8003 s1) =
        some { t with BUFF_STATUS := 1 <<< (2 * 2 + 1) } ∧
      t.EPxBufferControlOut 2 &&& usbBuf0CtrlLenMask = usbBufferLen ∧
      t.EPxBufferControlOut 2 &&& usbBuf0CtrlAvail = usbBuf0CtrlAvail :=
  bulk_out_round_trip rp2350Callbacks zeroState 2 [9, 8, 7] 0x8003 0x10 (some storeFirstByte)
    (by decide) (by decide) (by decide) (by decide) (by decide) rfl (fun _ _ => rfl)
    (Nat.le_refl 0) (by decide) (by decide) (by decide)

/-- C12, as stated, fails: with the length field 65 in the OUT buffer-control
word of endpoint 1, the slice `Buffer0[:65]` of `handleEndpointRx` is out of
range, and so is a buffer-status interrupt that reports this OUT buffer. -/
theorem rx_length_counterexample :
    (hwReceive 1 (List.replicate 65 1) 65 zeroState).EPxBufferControlOut 1
        &&& usbBuf0CtrlLenMask = 65 ∧
      handleEndpointRx 1 (hwReceive 1 (List.replicate 65 1) 65 zeroState) = none ∧
      handleUSBIRQ rp2350 0x10 0x8 (hwReceive 1 (List.replicate 65 1) 65 zeroState) = none :=
  ⟨by decide, rfl, rfl⟩

/-- C12, amended. For every endpoint index 0..15, `handleEndpointRx` returns
the slice `Buffer0[:sz]` exactly when the length field `sz` of the OUT
buffer-control word is at most 64, the size of the buffer. From every state
in which the length field of every OUT buffer-control word is at most 64 and
the pending offset lies within the pending data, with handler tables that
cover the 16 endpoints and callbacks that keep these conditions,
`handleUSBIRQ` runs to completion for every interrupt status and every
buffer-status bitmap, and leaves such a state. -/
theorem irq_runs_when_lengths_fit (env : Env) (s : State) (status s2 : Nat)
    (hk : env.CallbacksKeep IrqSafe) (hrx : 16 ≤ env.usbRxHandler.length)
    (htx : 16 ≤ env.usbTxHandler.length) (hp : IrqSafe s) :
    (∀ (ep : Nat) (v : State), ep < 16 →
      ((∃ r, handleEndpointRx ep v = some r ∧
          r.1.length = v.EPxBufferControlOut ep &&& usbBuf0CtrlLenMask) ↔
        v.EPxBufferControlOut ep &&& usbBuf0CtrlLenMask ≤ usbBufferLen)) ∧
    ∃ t, handleUSBIRQ env status s2 s = some t ∧ IrqSafe t :=
  ⟨fun ep v h16 => handleEndpointRx_returns_iff ep v h16,
    handleUSBIRQ_safe env hk hrx htx status s2 s hp⟩

/-- Witness of C12: an interrupt with the three conditions, two completed IN
buffers and the completed OUT buffer of endpoint 2 holding three bytes, with
callbacks registered. -/
theorem irq_runs_when_lengths_fit_witness :
    (∀ (ep : Nat) (v : State), ep < 16 →
      ((∃ r, handleEndpointRx ep v = some r ∧
          r.1.length = v.EPxBufferControlOut ep &&& usbBuf0CtrlLenMask) ↔
        v.EPxBufferControlOut ep &&& usbBuf0CtrlLenMask ≤ usbBufferLen)) ∧
    ∃ t, handleUSBIRQ rp2350Callbacks 0x11010 0x25 (hwReceive 2 [9, 8, 7] 0x8003 zeroState)
      = some t ∧ IrqSafe t :=
  irq_runs_when_lengths_fit rp2350Callbacks (hwReceive 2 [9, 8, 7] 0x8003 zeroState)
    0x11010 0x25 (rp2350Callbacks_keep invClosed_IrqSafe) (by decide) (by decide)
    ⟨by unfold RxLenOK; decide, Nat.le_refl 0⟩

/-- C13, as stated, fails: from cleared packet memory, one send on endpoint 1
writes an IN buffer-control word with the available flag and the full flag
both set. -/
theorem avail_full_counterexample :
    ∃ t, runOps rp2350 [Op.sendUSBPacket 1 [1] 0] (usbDPSRAM.clear zeroState) = some t ∧
      t.EPxBufferControlIn 1 &&& usbBuf0CtrlAvail = usbBuf0CtrlAvail ∧
      t.EPxBufferControlIn 1 &&& usbBuf0CtrlFull = usbBuf0CtrlFull :=
  ⟨_, rfl, by decide, by decide⟩

/-- C13, amended. Starting from cleared packet memory, in every state reached
by the operations of the driver (`clear`, `initEndpoint`, `sendUSBPacket`,
`sendViaEPIn`, `sendStallViaEPIn`, `handleEndpointRx`,
`handleEndpointRxComplete`, `handleUSBIRQ`), with callbacks that set no full
flag in an OUT buffer-control word, no OUT buffer-control word of an endpoint
has the full flag, so none has the available flag and the full flag both set.
In the IN direction `sendViaEPIn` writes the available flag and the full flag
together, and `sendStallViaEPIn` writes full and stall without available. -/
theorem out_never_avail_and_full (env : Env) (hk : env.CallbacksKeep OutNotFull) :
    (∀ (s0 : State) (ops : List Op) (t : State),
      runOps env ops (usbDPSRAM.clear s0) = some t →
      ∀ i, i < 16 →
        t.EPxBufferControlOut i &&& usbBuf0CtrlFull = 0 ∧
        ¬ (t.EPxBufferControlOut i &&& usbBuf0CtrlAvail ≠ 0 ∧
          t.EPxBufferControlOut i &&& usbBuf0CtrlFull ≠ 0)) ∧
    (∀ (ep : Nat) (data : List Nat) (count : Nat) (s : State), ep < 16 →
      count ≤ data.length → count ≤ 64 →
      ∃ u, sendViaEPIn ep data count s = some u ∧
        u.EPxBufferControlIn ep &&& usbBuf0CtrlAvail = usbBuf0CtrlAvail ∧
        u.EPxBufferControlIn ep &&& usbBuf0CtrlFull = usbBuf0CtrlFull) ∧
    (∀ (ep : Nat) (s : State), ep < 16 →
      ∃ u, sendStallViaEPIn env ep s = some u ∧
        u.EPxBufferControlIn ep = usbBuf0CtrlFull ||| usbBuf0CtrlStall ∧
        u.EPxBufferControlIn ep &&& usbBuf0CtrlAvail = 0) := by
  refine ⟨?_, ?_, ?_⟩
  · intro s0 ops t h i hi
    have hf := runOps_keeps invClosed_OutNotFull env hk ops _ t h (clear_OutNotFull s0) i hi
    exact ⟨hf, fun hboth => hboth.2 hf⟩
  · intro ep data count s h16 hc h64
    obtain ⟨u, hu, _, _, _, c2, c3, _⟩ := sendViaEPIn_packet ep data count s h16 hc h64
    exact ⟨u, hu, c2, c3⟩
  · intro ep s h16
    have h7 := and_7F_of_lt ep h16
    have hret : ∃ u, sendStallViaEPIn env ep s = some u := by
      simp only [sendStallViaEPIn, h7, if_pos h16]
      exact ⟨_, rfl⟩
    obtain ⟨u, hu⟩ := hret
    have hw := sendStallViaEPIn_word env ep s u h16 hu
    refine ⟨u, hu, hw, ?_⟩
    rw [hw]
    decide

/-- Witness of C13: endpoint 2 configured as bulk OUT, a send on endpoint 1,
a buffer-status interrupt for the OUT buffer of endpoint 2 and the IN buffer of
endpoint 1, and a bus reset, with callbacks registered. -/
theorem out_never_avail_and_full_witness :
    ∃ t, runOps rp2350Callbacks
        [Op.initEndpoint 2 0x02, Op.sendUSBPacket 1 [1, 2] 0, Op.handleUSBIRQ 0x10 0x24,
          Op.handleUSBIRQ 0x1000 0] (usbDPSRAM.clear zeroState) = some t ∧
      ∀ i, i < 16 →
        t.EPxBufferControlOut i &&& usbBuf0CtrlFull = 0 ∧
        ¬ (t.EPxBufferControlOut i &&& usbBuf0CtrlAvail ≠ 0 ∧
          t.EPxBufferControlOut i &&& usbBuf0CtrlFull ≠ 0) := by
  have hrun : ∃ t, runOps rp2350Callbacks
      [Op.initEndpoint 2 0x02, Op.sendUSBPacket 1 [1, 2] 0, Op.handleUSBIRQ 0x10 0x24,
        Op.handleUSBIRQ 0x1000 0] (usbDPSRAM.clear zeroState) = some t := ⟨_, rfl⟩
  obtain ⟨t, ht⟩ := hrun
  exact ⟨t, ht, (out_never_avail_and_full rp2350Callbacks
    (rp2350Callbacks_keep invClosed_OutNotFull)).1 zeroState _ t ht⟩

/-- C14, as stated, fails on endpoint 1: a send writes the DATA1 flag clear,
and the same send after a completed reception writes it set; a reception is
re-armed with the DATA1 flag set, and the same reception after a send is
re-armed with it clear. -/
theorem per_direction_counterexample :
    (∃ a r u b, sendViaEPIn 1 [1] 1 zeroState = some a ∧
      handleEndpointRx 1 zeroState = some r ∧ handleEndpointRxComplete 1 r.2 = some u ∧
      sendViaEPIn 1 [1] 1 u = some b ∧
      data1Flag (a.EPxBufferControlIn 1) = false ∧
      data1Flag (b.EPxBufferControlIn 1) = true) ∧
    (∃ r u a q v, handleEndpointRx 1 zeroState = some r ∧
      handleEndpointRxComplete 1 r.2 = some u ∧
      sendViaEPIn 1 [1] 1 zeroState = some a ∧
      handleEndpointRx 1 a = some q ∧ handleEndpointRxComplete 1 q.2 = some v ∧
      data1Flag (u.EPxBufferControlOut 1) = true ∧
      data1Flag (v.EPxBufferControlOut 1) = false) :=
  ⟨⟨_, _, _, _, rfl, rfl, rfl, rfl, by decide, by decide⟩,
   ⟨_, _, _, _, _, rfl, rfl, rfl, rfl, rfl, by decide, by decide⟩⟩

/-- C14, amended. The data-sequence state is one bit per endpoint index, shared
by the two directions. For every endpoint index 0..15 and every state whose
OUT length field fits the buffer: after a completed reception on the endpoint
(`handleEndpointRx` then `handleEndpointRxComplete`) the DATA1 flag written by
the next `sendViaEPIn` on the same index is the negation of the flag it writes
without the reception; and after a send the DATA1 flag written when the next
reception is re-armed is the negation of the flag written without the send on
the endpoints 1..15, and is set in both cases on endpoint 0. -/
theorem sequence_bit_shared (ep : Nat) (data : List Nat) (count : Nat) (s : State)
    (hep : ep < 16) (hc : count ≤ data.length) (h64 : count ≤ 64)
    (hlen : s.EPxBufferControlOut ep &&& usbBuf0CtrlLenMask ≤ usbBufferLen) :
    (∃ a r u b, sendViaEPIn ep data count s = some a ∧
      handleEndpointRx ep s = some r ∧ handleEndpointRxComplete ep r.2 = some u ∧
      sendViaEPIn ep data count u = some b ∧
      data1Flag (b.EPxBufferControlIn ep) = (!data1Flag (a.EPxBufferControlIn ep))) ∧
    (∃ r u a q v, handleEndpointRx ep s = some r ∧
      handleEndpointRxComplete ep r.2 = some u ∧
      sendViaEPIn ep data count s = some a ∧
      handleEndpointRx ep a = some q ∧ handleEndpointRxComplete ep q.2 = some v ∧
      data1Flag (v.EPxBufferControlOut ep) =
        (if ep = 0 then true else !data1Flag (u.EPxBufferControlOut ep)) ∧
      (ep = 0 → data1Flag (u.EPxBufferControlOut ep) = true)) := by
  obtain ⟨a, ha, fa, ba, oa⟩ := sendViaEPIn_flag ep data count s hep hc h64
  obtain ⟨r, u, hr, hu, bu, fu⟩ := reception_flag ep s hep hlen
  obtain ⟨b, hb, fb, _, _⟩ := sendViaEPIn_flag ep data count u hep hc h64
  obtain ⟨q, v, hq, hv, _, fv⟩ := reception_flag ep a hep (by rw [oa]; exact hlen)
  refine ⟨⟨a, r, u, b, ha, hr, hu, hb, ?_⟩, ⟨r, u, a, q, v, hr, hu, ha, hq, hv, ?_, ?_⟩⟩
  · rw [fb, fa, bu]
  · rw [fv, fu, ba]
    by_cases h0 : ep = 0
    · simp [h0]
    · simp [h0]
  · intro h0
    rw [fu]
    simp [h0]

/-- Witness of C14: endpoint 3, two bytes, after one earlier send. -/
theorem sequence_bit_shared_witness :
    (∃ a r u b, sendViaEPIn 3 [5, 6] 2 (sendOneByte zeroState) = some a ∧
      handleEndpointRx 3 (sendOneByte zeroState) = some r ∧
      handleEndpointRxComplete 3 r.2 = some u ∧
      sendViaEPIn 3 [5, 6] 2 u = some b ∧
      data1Flag (b.EPxBufferControlIn 3) = (!data1Flag (a.EPxBufferControlIn 3))) ∧
    (∃ r u a q v, handleEndpointRx 3 (sendOneByte zeroState) = some r ∧
      handleEndpointRxComplete 3 r.2 = some u ∧
      sendViaEPIn 3 [5, 6] 2 (sendOneByte zeroState) = some a ∧
      handleEndpointRx 3 a = some q ∧ handleEndpointRxComplete 3 q.2 = some v ∧
      data1Flag (v.EPxBufferControlOut 3) =
        (if (3 : Nat) = 0 then true else !data1Flag (u.EPxBufferControlOut 3)) ∧
      ((3 : Nat) = 0 → data1Flag (u.EPxBufferControlOut 3) = true)) :=
  sequence_bit_shared 3 [5, 6] 2 (sendOneByte zeroState) (by decide) (by decide) (by decide)
    (by decide)

end RP2350
